import Mathlib

/-!
# Authorization extensions of the configuration database (package `extensions`)

A shallow embedding of `src/auth/extensions/{audit,attribute,classification}.go`.

* Go slices are lists (a nil slice and an empty slice are both `[]`).
* `int64` values are `Int`; no arithmetic is performed on them by this package.
* A Go `map` is an association list with pairwise distinct keys; the order in
  which `range` visits a map is not specified by Go and is supplied by a
  `RangeOrder`, which may be any permutation of the entries.
* Collaborators (policy engine, store, decoders and library helpers) are fields
  of `AuthManager`.  Every effectful collaborator receives the list of calls made
  so far, so that its answer may depend on the whole history; every operation
  that calls one returns the extended call list next to its Go result.
* Functions of the package that live in files other than the three embedded ones
  (`collectObjectsByRawIDs`, `collectObjectsByObjectIDs`,
  `ExtractBusinessIDFromObjects`) are modelled from the specification.
-/

namespace Extensions

/-! ## Errors, headers, calls -/

/-- Error values.  `external` is an error produced by a collaborator, `errorf` is
`fmt.Errorf` with a format that embeds no other error, `wrap` is `fmt.Errorf` with a
format that prints the error `cause`. -/
inductive Err where
  | external (text : String)
  | errorf (format : String)
  | wrap (format : String) (cause : Err)
  deriving DecidableEq, Repr

/-- The type `http.Header`. -/
abbrev Header := List (String × List String)

/-- Filter documents handed to the store and returned to the caller
(`mapstr.MapStr` as produced by the `condition` builder): `Eq v` is stored as the
value itself, `In vs` as the document with the single key `$in`. -/
inductive CondValue where
  | eqInt (v : Int)
  | inStr (vs : List String)
  | inInt (vs : List Int)
  deriving DecidableEq, Repr

/-- Modelled from the spec: `mapstr.MapStr` built by `condition.CreateCondition()`, a
filter expression over a target-field-equals-one-of clause and optional
tenant-equals clause; one entry per `Field(..)` call, in call order. -/
abbrev MapStr := List (String × CondValue)

/-- A raw record of the store (`mapstr.MapStr` inside `resp.Data.Info`). -/
abbrev Record := List (String × String)

/-- Constant `common.BKOpTargetField`. -/
def BKOpTargetField : String := "op_target"
/-- Constant `common.BKAppIDField`. -/
def BKAppIDField : String := "bk_biz_id"
/-- Constant `common.BKFieldID`. -/
def BKFieldID : String := "id"
/-- Constant `common.BKClassificationIDField`. -/
def BKClassificationIDField : String := "bk_classification_id"
/-- Constant `common.BKTableNameObjAttDes`. -/
def BKTableNameObjAttDes : String := "cc_ObjAttDes"
/-- Constant `common.BKTableNameObjClassifiction`. -/
def BKTableNameObjClassifiction : String := "cc_ObjClassification"
/-- Constant `common.BKTableNameObjDes`. -/
def BKTableNameObjDes : String := "cc_ObjDes"
/-- Constant `common.BKObjIDField`. -/
def BKObjIDField : String := "bk_obj_id"

/-! ## Go maps -/

/-- A Go map: association list, keys pairwise distinct. -/
abbrev GoMap (κ ν : Type) := List (κ × ν)

namespace GoMap

variable {κ ν : Type} [DecidableEq κ]

/-- The statement `delete(m, k)`. -/
def delete (m : GoMap κ ν) (k : κ) : GoMap κ ν :=
  m.filter (fun e => decide (e.1 ≠ k))

/-- The statement `m[k] = v`. -/
def set (m : GoMap κ ν) (k : κ) (v : ν) : GoMap κ ν :=
  delete m k ++ [(k, v)]

/-- The expression `v, ok := m[k]`. -/
def get? (m : GoMap κ ν) (k : κ) : Option ν :=
  (m.find? (fun e => decide (e.1 = k))).map Prod.snd

end GoMap

/-- The order in which `range` visits the entries of a map: any permutation. -/
structure RangeOrder (κ ν : Type) where
  order : GoMap κ ν → GoMap κ ν
  perm : ∀ m, (order m).Perm m

/-- The visiting order that follows the association list. -/
def RangeOrder.insertion (κ ν : Type) : RangeOrder κ ν :=
  ⟨fun m => m, fun m => List.Perm.refl m⟩

/-- The visiting order that follows the association list backwards. -/
def RangeOrder.reversed (κ ν : Type) : RangeOrder κ ν :=
  ⟨fun m => m.reverse, fun m => List.reverse_perm m⟩

/-! ## Data model -/

/-- Resource kinds of package `meta` used by this package. -/
inductive ResourceType where
  | Model
  | ModelClassification
  | ModelAttribute
  | AuditLog
  deriving DecidableEq, Repr

/-- Actions of package `meta` used by this package. -/
inductive Action where
  | EmptyAction
  | Create
  | Update
  | Delete
  | Find
  | FindMany
  deriving DecidableEq, Repr

/-- One parent layer, `meta.Item`; the source sets `Type` (here `Type_`), `Name` and `InstanceID`. -/
structure Item where
  Type_ : ResourceType
  Name : String
  InstanceID : Int
  deriving DecidableEq, Repr

/-- The struct `meta.Basic`. -/
structure Basic where
  Action : Action
  Type_ : ResourceType
  Name : String
  InstanceID : Int
  deriving DecidableEq, Repr

/-- The struct `meta.ResourceAttribute`. -/
structure ResourceAttribute where
  Basic : Basic
  SupplierAccount : String
  BusinessID : Int
  Layers : List Item
  deriving DecidableEq, Repr

/-- The label map `metadata.Label`. -/
abbrev Label := List (String × String)

/-- Constant `metadata.LabelBusinessID`. -/
def LabelBusinessID : String := "bk_biz_id"

/-- The sentinel `metadata.LabelKeyNotExistError`. -/
def LabelKeyNotExistError : Err := Err.external "label key does not exist"

/-- The fields of `metadata.Object` read by this package. -/
structure Object where
  ID : Int
  ObjectID : String
  ObjCls : String
  Label : Label
  deriving DecidableEq, Repr

/-- The fields of `metadata.Classification` read by this package. -/
structure Classification where
  ID : Int
  ClassificationID : String
  Label : Label
  deriving DecidableEq, Repr

/-- The fields of `metadata.Attribute` read by this package. -/
structure Attribute where
  ID : Int
  ObjectID : String
  PropertyName : String
  deriving DecidableEq, Repr

/-- The struct `AuditCategorySimplify`. -/
structure AuditCategorySimplify where
  BKAppIDField : Int
  BKOpTargetField : String
  ModelID : Int
  deriving DecidableEq, Repr

/-- One element of an identifier chain of a grant. -/
structure RscTypeAndID where
  ResourceType : String
  ResourceID : String
  deriving DecidableEq, Repr

/-- One grant entry returned by the policy engine. -/
structure AuthorizedResource where
  ActionID : String
  ResourceType : String
  ResourceIDs : List (List RscTypeAndID)
  deriving DecidableEq, Repr

/-- The calls this package makes to its collaborators. -/
inductive Call where
  | GetAuthorizedBusinessList (user : String)
  | GetAuthorizedAuditList (user : String) (businessID : Int)
  | ReadInstance (table : String) (cond : MapStr)
  | RegisterResource (resources : List ResourceAttribute)
  | DeregisterResource (resources : List ResourceAttribute)
  | UpdateResource (resource : ResourceAttribute)
  | AuthorizeByObjectID (action : Action) (objectIDs : List String)
  deriving DecidableEq, Repr

/-- The manager, together with the collaborators and library helpers it calls. -/
structure AuthManager where
  /-- The toggle `am.RegisterModelAttributeEnabled`. -/
  RegisterModelAttributeEnabled : Bool
  /-- The toggle `am.SkipReadAuthorization`. -/
  SkipReadAuthorization : Bool
  /-- The helper `parser.ParseCommonInfo`, reduced to the user it extracts. -/
  ParseCommonInfo : Header → Except Err String
  /-- The helper `util.GetOwnerID`. -/
  GetOwnerID : Header → String
  /-- The helper `util.GetInt64ByInterface`. -/
  GetInt64ByInterface : String → Except Err Int
  /-- The decimal parser behind `metadata.Label.Int64`. -/
  ParseInt : String → Except Err Int
  /-- The engine call `am.Authorize.GetAuthorizedBusinessList`. -/
  GetAuthorizedBusinessList : List Call → String → Except Err (List Int)
  /-- The engine call `am.Authorize.GetAuthorizedAuditList`. -/
  GetAuthorizedAuditList : List Call → String → Int → Except Err (List AuthorizedResource)
  /-- The store call `am.clientSet.CoreService().Instance().ReadInstance`. -/
  ReadInstance : List Call → Header → String → MapStr → Except Err (List Record)
  /-- The decoder `metadata.Attribute.Parse`. -/
  ParseAttribute : Record → Except Err Attribute
  /-- The decoder `metadata.Classification.Parse`. -/
  ParseClassification : Record → Except Err Classification
  /-- The decoder `metadata.Object.Parse`. -/
  ParseObject : Record → Except Err Object
  /-- The visiting order of `range authorizedBusinessModelMap`. -/
  rangeOrder : RangeOrder Int (List String)
  /-- The engine call `am.Authorize.RegisterResource`; `none` is the nil error. -/
  RegisterResource : List Call → List ResourceAttribute → Option Err
  /-- The engine call `am.Authorize.DeregisterResource`; `none` is the nil error. -/
  DeregisterResource : List Call → List ResourceAttribute → Option Err
  /-- The engine call `am.Authorize.UpdateResource`; `none` is the nil error. -/
  UpdateResource : List Call → ResourceAttribute → Option Err
  /-- The model-level check `am.AuthorizeByObjectID` (its file, object.go, is not
  embedded; the specification only names it "the coarser model-level check"), taken
  as a collaborator; `none` is the nil error. -/
  AuthorizeByObjectID : List Call → Header → Action → List String → Option Err

/-! ## Library helpers, shared loops and functions of files that are not embedded -/

/-- The loop behind `util.IntArrayUnique` and `util.StrArrayUnique`. -/
def uniqueLoop {α : Type} [DecidableEq α] : List α → List α → List α
  | [], ret => ret
  | x :: rest, ret => if x ∈ ret then uniqueLoop rest ret else uniqueLoop rest (ret ++ [x])

/-- Modelled from the spec: `util.IntArrayUnique` (package `util` is not embedded);
"deduplicates identifiers", keeping the first occurrence of each. -/
def IntArrayUnique (a : List Int) : List Int := uniqueLoop a []

/-- Modelled from the spec: `util.StrArrayUnique` (package `util` is not embedded);
"deduplicates identifiers", keeping the first occurrence of each. -/
def StrArrayUnique (a : List String) : List String := uniqueLoop a []

/-- Modelled from the spec: `metadata.Label.Int64` (package `metadata` is not
embedded); the tenant label of an entity, "treating label absent as tenant 0":
an absent key gives `(0, LabelKeyNotExistError)`, a present key gives its decimal
value or the parser's error. -/
def Label.Int64 (am : AuthManager) (label : Label) (key : String) : Int × Option Err :=
  match label.lookup key with
  | none => (0, some LabelKeyNotExistError)
  | some value =>
    match am.ParseInt value with
    | .ok v => (v, none)
    | .error err => (0, some (Err.wrap "convert label value to int64 failed, err: %+v" err))

/-- The decoding loop of the collectors (attribute.go 46-55, classification.go 44-52
and 68-77): every record is decoded in order, the first failure aborts with
`fmt.Errorf(format, err)`. -/
def parseLoop {α : Type} (parse : Record → Except Err α) (format : String) :
    List Record → List α → Except Err (List α)
  | [], acc => .ok acc
  | item :: rest, acc =>
    match parse item with
    | .error err => .error (Err.wrap format err)
    | .ok a => parseLoop parse format rest (acc ++ [a])

/-- Modelled from the spec: `am.collectObjectsByRawIDs` (its file, object.go, is not
embedded), the EntityCollector contract: "Deduplicates identifiers; issues one
batched lookup; fails with NotFound if the returned count is zero, and with
CountMismatch if the returned count differs from the deduplicated request count";
each raw record is decoded, a decode failure aborts the whole batch. -/
def collectObjectsByRawIDs (am : AuthManager) (header : Header) (ids : List Int)
    (log : List Call) : Except Err (List Object) × List Call :=
  let ids := IntArrayUnique ids
  let cond : MapStr := [(BKFieldID, CondValue.inInt ids)]
  let log1 := log ++ [Call.ReadInstance BKTableNameObjDes cond]
  match am.ReadInstance log header BKTableNameObjDes cond with
  | .error err => (.error (Err.wrap "get model by id: %+v failed, err: %+v" err), log1)
  | .ok info =>
    if info.length = 0 then
      (.error (Err.errorf "get model by id: %+v failed, not found"), log1)
    else if info.length ≠ ids.length then
      (.error (Err.errorf "get model by id: %+v failed, get %d, expect %d"), log1)
    else
      (parseLoop am.ParseObject "parse model from db data failed, err: %+v" info [], log1)

/-- Modelled from the spec: `am.collectObjectsByObjectIDs` (its file, object.go, is
not embedded), the EntityCollector contract: "Deduplicates identifiers; issues
one batched lookup; fails with NotFound if the returned count is zero, and with
CountMismatch if the returned count differs from the deduplicated request count";
each raw record is decoded, a decode failure aborts the whole batch. -/
def collectObjectsByObjectIDs (am : AuthManager) (header : Header) (objectIDs : List String)
    (log : List Call) : Except Err (List Object) × List Call :=
  let objectIDs := StrArrayUnique objectIDs
  let cond : MapStr := [(BKObjIDField, CondValue.inStr objectIDs)]
  let log1 := log ++ [Call.ReadInstance BKTableNameObjDes cond]
  match am.ReadInstance log header BKTableNameObjDes cond with
  | .error err => (.error (Err.wrap "get model by id: %+v failed, err: %+v" err), log1)
  | .ok info =>
    if info.length = 0 then
      (.error (Err.errorf "get model by id: %+v failed, not found"), log1)
    else if info.length ≠ objectIDs.length then
      (.error (Err.errorf "get model by id: %+v failed, get %d, expect %d"), log1)
    else
      (parseLoop am.ParseObject "parse model from db data failed, err: %+v" info [], log1)

/-- The loop of `extractBusinessIDFromClassifications` (classification.go 83-93)
over the labels of the batch: `idx > 0` is `started`, `businessID` holds the value
of the previous entity; the two formats are those of the two `fmt.Errorf`. -/
def extractLabelLoop (am : AuthManager) (parseFormat multipleFormat : String) :
    List Label → Bool → Int → Except Err Int
  | [], _, businessID => .ok businessID
  | label :: rest, started, businessID =>
    let r := Label.Int64 am label LabelBusinessID
    if r.2 ≠ none ∧ r.2 ≠ some LabelKeyNotExistError then
      .error (Err.wrap parseFormat (r.2.getD LabelKeyNotExistError))
    else if started ∧ r.1 ≠ businessID then
      .error (Err.errorf multipleFormat)
    else
      extractLabelLoop am parseFormat multipleFormat rest true r.1

/-- Modelled from the spec: `am.ExtractBusinessIDFromObjects` (its file, object.go, is
not embedded), the TenancyResolver contract: walks entities in input order,
"treating label absent as tenant 0"; a later entity disagreeing with the
candidate fails; "Empty input yields tenant 0 without error". -/
def ExtractBusinessIDFromObjects (am : AuthManager) (objects : List Object) : Except Err Int :=
  extractLabelLoop am "parse biz id from model: %+v failed, err: %+v"
    "authorization failed, get multiple business ID from objects"
    (objects.map (fun object => object.Label)) false 0

/-! ## audit.go -/

/-- The loop of `ExtractBusinessIDFromAuditCategories`: `idx > 0` is `started`. -/
def extractAuditLoop : List AuditCategorySimplify → Bool → Int → Except Err Int
  | [], _, businessID => .ok businessID
  | category :: rest, started, businessID =>
    let bizID := category.BKAppIDField
    if started ∧ bizID ≠ businessID then
      .error (Err.errorf "get multiple business ID from audit categories")
    else
      extractAuditLoop rest true bizID

/-- Function `ExtractBusinessIDFromAuditCategories` (audit.go 103-113). -/
def ExtractBusinessIDFromAuditCategories (categories : List AuditCategorySimplify) :
    Except Err Int :=
  extractAuditLoop categories false 0

/-- The loop of `MakeResourcesByAuditCategories` (audit.go 118-132). -/
def auditResourcesLoop (am : AuthManager) (header : Header) (action : Action)
    (businessID : Int) : List AuditCategorySimplify → List ResourceAttribute →
      List ResourceAttribute
  | [], resources => resources
  | category :: rest, resources =>
    let resource : ResourceAttribute :=
      { Basic := { Action := action, Type_ := ResourceType.AuditLog,
                   Name := category.BKOpTargetField, InstanceID := category.ModelID },
        SupplierAccount := am.GetOwnerID header,
        BusinessID := businessID,
        Layers := [] }
    auditResourcesLoop am header action businessID rest (resources ++ [resource])

/-- Function `MakeResourcesByAuditCategories` (audit.go 115-136). -/
def MakeResourcesByAuditCategories (am : AuthManager) (header : Header) (action : Action)
    (businessID : Int) (categories : List AuditCategorySimplify) :
    Except Err (List ResourceAttribute) :=
  .ok (auditResourcesLoop am header action businessID categories [])

/-- The loop over `authorizedList.ResourceIDs` (audit.go 193-204). -/
def collectChainIDs (am : AuthManager) :
    List (List RscTypeAndID) → List Int → Except Err (List Int)
  | [], modelIDs => .ok modelIDs
  | resourceID :: rest, modelIDs =>
    match resourceID.getLast? with
    | none => collectChainIDs am rest modelIDs
    | some last =>
      match am.GetInt64ByInterface last.ResourceID with
      | .error err =>
        .error (Err.wrap "get authorized audit by business %d failed, err: %+v" err)
      | .ok id => collectChainIDs am rest (modelIDs ++ [id])

/-- The loop over `auditList` (audit.go 191-205). -/
def collectModelIDs (am : AuthManager) :
    List AuthorizedResource → List Int → Except Err (List Int)
  | [], modelIDs => .ok modelIDs
  | authorizedList :: rest, modelIDs =>
    match collectChainIDs am authorizedList.ResourceIDs modelIDs with
    | .error err => .error err
    | .ok modelIDs1 => collectModelIDs am rest modelIDs1

/-- The loop over `businessIDs` (audit.go 181-221), threading the map
`authorizedBusinessModelMap` and the call list. -/
def auditLoop (am : AuthManager) (header : Header) (user : String) :
    List Int → GoMap Int (List String) → List Call →
      Except Err (GoMap Int (List String)) × List Call
  | [], m, log => (.ok m, log)
  | businessID :: rest, m, log =>
    let log1 := log ++ [Call.GetAuthorizedAuditList user businessID]
    match am.GetAuthorizedAuditList log user businessID with
    | .error err =>
      (.error (Err.wrap "get authorized audit by business %d failed, err: %+v" err), log1)
    | .ok auditList =>
      match collectModelIDs am auditList [] with
      | .error err => (.error err, log1)
      | .ok modelIDs =>
        if modelIDs.length = 0 then
          auditLoop am header user rest m log1
        else
          match collectObjectsByRawIDs am header modelIDs log1 with
          | (.error err, log2) =>
            (.error (Err.wrap
              "get related model with id %+v by authorized audit failed, err: %+v" err), log2)
          | (.ok objects, log2) =>
            auditLoop am header user rest
              (GoMap.set m businessID (objects.map (fun object => object.ObjectID))) log2

/-- The predicate built at audit.go 230-233: `op_target in objectIDs`. -/
def globalItem (objectIDs : List String) : MapStr :=
  [(BKOpTargetField, CondValue.inStr objectIDs)]

/-- The predicate built at audit.go 241-245: `op_target in objectIDs` and
`bk_biz_id == businessID`. -/
def scopedItem (businessID : Int) (objectIDs : List String) : MapStr :=
  [(BKOpTargetField, CondValue.inStr objectIDs), (BKAppIDField, CondValue.eqInt businessID)]

/-- The loop `for businessID, objectIDs := range authorizedBusinessModelMap`
(audit.go 239-246) over the entries in visiting order. -/
def scopedLoop : List (Int × List String) → List MapStr → Bool → List MapStr × Bool
  | [], cond, hasAuthorization => (cond, hasAuthorization)
  | (businessID, objectIDs) :: rest, cond, _ =>
    scopedLoop rest (cond ++ [scopedItem businessID objectIDs]) true

/-- The tail of `MakeAuthorizedAuditListCondition` (audit.go 224-249): from the
filled map to `(cond, hasAuthorization)`. -/
def conditionsOfMap (order : RangeOrder Int (List String)) (m : GoMap Int (List String)) :
    List MapStr × Bool :=
  match GoMap.get? m 0 with
  | some objectIDs =>
    if objectIDs.length > 0 then
      scopedLoop (order.order (GoMap.delete m 0)) [globalItem objectIDs] true
    else
      scopedLoop (order.order m) [] false
  | none => scopedLoop (order.order m) [] false

/-- The three results of `MakeAuthorizedAuditListCondition`. -/
structure AuditListCondition where
  cond : List MapStr
  hasAuthorization : Bool
  err : Option Err
  deriving DecidableEq, Repr

/-- Function `MakeAuthorizedAuditListCondition` (audit.go 161-250). -/
def MakeAuthorizedAuditListCondition (am : AuthManager) (header : Header) (businessID : Int)
    (log : List Call) : AuditListCondition × List Call :=
  match am.ParseCommonInfo header with
  | .error err =>
    (⟨[], false, some (Err.wrap "parse user info from request header failed, %+v" err)⟩, log)
  | .ok user =>
    let fetched : Except Err (List Int) × List Call :=
      if businessID = 0 then
        (match am.GetAuthorizedBusinessList log user with
          | .error err => .error (Err.wrap
              "make condition from authorization failed, get authorized businesses failed, err: %+v"
              err)
          | .ok ids => .ok ids,
         log ++ [Call.GetAuthorizedBusinessList user])
      else (.ok [], log)
    match fetched with
    | (.error err, log1) => (⟨[], false, some err⟩, log1)
    | (.ok businessIDs, log1) =>
      match auditLoop am header user (businessIDs ++ [0]) [] log1 with
      | (.error err, log2) => (⟨[], false, some err⟩, log2)
      | (.ok authorizedBusinessModelMap, log2) =>
        let r := conditionsOfMap am.rangeOrder authorizedBusinessModelMap
        (⟨r.1, r.2, none⟩, log2)

/-! ## classification.go -/

/-- Function `collectClassificationsByClassificationIDs` (classification.go 32-54). -/
def collectClassificationsByClassificationIDs (am : AuthManager) (header : Header)
    (classificationIDs : List String) (log : List Call) :
    Except Err (List Classification) × List Call :=
  let classificationIDs := StrArrayUnique classificationIDs
  let cond : MapStr := [(BKClassificationIDField, CondValue.inStr classificationIDs)]
  let log1 := log ++ [Call.ReadInstance BKTableNameObjClassifiction cond]
  match am.ReadInstance log header BKTableNameObjClassifiction cond with
  | .error err => (.error (Err.wrap "get classification by id failed, err: %+v" err), log1)
  | .ok info =>
    (parseLoop am.ParseClassification "get classication by object failed, err: %+v" info [],
     log1)

/-- Function `collectClassificationsByRawIDs` (classification.go 56-79). -/
def collectClassificationsByRawIDs (am : AuthManager) (header : Header) (ids : List Int)
    (log : List Call) : Except Err (List Classification) × List Call :=
  let ids := IntArrayUnique ids
  let cond : MapStr := [(BKFieldID, CondValue.inInt ids)]
  let log1 := log ++ [Call.ReadInstance BKTableNameObjClassifiction cond]
  match am.ReadInstance log header BKTableNameObjClassifiction cond with
  | .error err => (.error (Err.wrap "get classification by id failed, err: %+v" err), log1)
  | .ok info =>
    (parseLoop am.ParseClassification "parse classification from db data failed, err: %+v"
      info [], log1)

/-- Function `extractBusinessIDFromClassifications` (classification.go 81-95). -/
def extractBusinessIDFromClassifications (am : AuthManager)
    (classifications : List Classification) : Except Err Int :=
  extractLabelLoop am "parse biz id from classification: %+v failed, err: %+v"
    "authorization failed, get multiple business ID from objects"
    (classifications.map (fun classification => classification.Label)) false 0

/-- The loop of `makeResourcesByClassifications` (classification.go 99-112). -/
def classificationResourcesLoop (am : AuthManager) (header : Header) (action : Action)
    (businessID : Int) : List Classification → List ResourceAttribute → List ResourceAttribute
  | [], resources => resources
  | classification :: rest, resources =>
    let resource : ResourceAttribute :=
      { Basic := { Action := action, Type_ := ResourceType.ModelClassification,
                   Name := classification.ClassificationID,
                   InstanceID := classification.ID },
        SupplierAccount := am.GetOwnerID header,
        BusinessID := businessID,
        Layers := [] }
    classificationResourcesLoop am header action businessID rest (resources ++ [resource])

/-- Function `makeResourcesByClassifications` (classification.go 97-114). -/
def makeResourcesByClassifications (am : AuthManager) (header : Header) (action : Action)
    (businessID : Int) (classifications : List Classification) : List ResourceAttribute :=
  classificationResourcesLoop am header action businessID classifications []

/-- The loop of `UpdateRegisteredClassification` over `resources`
(classification.go 148-152). -/
def updateResourcesLoop (am : AuthManager) :
    List ResourceAttribute → List Call → Option Err × List Call
  | [], log => (none, log)
  | resource :: rest, log =>
    match am.UpdateResource log resource with
    | some err => (some err, log ++ [Call.UpdateResource resource])
    | none => updateResourcesLoop am rest (log ++ [Call.UpdateResource resource])

/-- Function `UpdateRegisteredClassification` (classification.go 134-155). -/
def UpdateRegisteredClassification (am : AuthManager) (header : Header)
    (classifications : List Classification) (log : List Call) : Option Err × List Call :=
  if classifications.length = 0 then (none, log)
  else
    match extractBusinessIDFromClassifications am classifications with
    | .error err =>
      (some (Err.wrap
        "authorize classifications failed, extract business id from classification failed, err: %+v"
        err), log)
    | .ok bizID =>
      updateResourcesLoop am
        (makeResourcesByClassifications am header Action.EmptyAction bizID classifications) log

/-! ## attribute.go -/

/-- Function `collectAttributesByAttributeIDs` (attribute.go 28-57). -/
def collectAttributesByAttributeIDs (am : AuthManager) (header : Header)
    (attributeIDs : List Int) (log : List Call) : Except Err (List Attribute) × List Call :=
  let attributeIDs := IntArrayUnique attributeIDs
  let cond : MapStr := [(BKFieldID, CondValue.inInt attributeIDs)]
  let log1 := log ++ [Call.ReadInstance BKTableNameObjAttDes cond]
  match am.ReadInstance log header BKTableNameObjAttDes cond with
  | .error err => (.error (Err.wrap "get attribute by id: %+v failed, err: %+v" err), log1)
  | .ok info =>
    if info.length = 0 then
      (.error (Err.errorf "get attribute by id: %+v failed, not found"), log1)
    else if info.length ≠ attributeIDs.length then
      (.error (Err.errorf "get attribute by id: %+v failed, get %d, expect %d"), log1)
    else
      (parseLoop am.ParseAttribute "parse attribute from db data failed, err: %+v" info [],
       log1)

/-- The zero value of `metadata.Object`, read from `objectMap` at an absent key. -/
def Object.zero : Object := { ID := 0, ObjectID := "", ObjCls := "", Label := [] }

/-- The zero value of `metadata.Classification`. -/
def Classification.zero : Classification := { ID := 0, ClassificationID := "", Label := [] }

/-- The loop filling `objectMap` (attribute.go 70-73). -/
def objectMapOf : List Object → GoMap String Object → GoMap String Object
  | [], m => m
  | object :: rest, m => objectMapOf rest (GoMap.set m object.ObjectID object)

/-- The loop filling `classificationMap` (attribute.go 88-91). -/
def classificationMapOf :
    List Classification → GoMap String Classification → GoMap String Classification
  | [], m => m
  | classification :: rest, m =>
    classificationMapOf rest (GoMap.set m classification.ClassificationID classification)

/-- The loop over `attributes` (attribute.go 94-134). -/
def attributeResourcesLoop (am : AuthManager) (header : Header) (action : Action)
    (businessID : Int) (objectMap : GoMap String Object)
    (classificationMap : GoMap String Classification) :
    List Attribute → List ResourceAttribute → Except Err (List ResourceAttribute)
  | [], resources => .ok resources
  | attr :: rest, resources =>
    let object := (GoMap.get? objectMap attr.ObjectID).getD Object.zero
    match GoMap.get? classificationMap object.ObjCls with
    | none =>
      .error (Err.errorf
        "authorization failed, get classification by object failed, err: bk_classification_id not exist")
    | some classification =>
      let parentLayers : List Item :=
        [{ Type_ := ResourceType.Model, Name := classification.ClassificationID,
           InstanceID := classification.ID },
         { Type_ := ResourceType.Model, Name := object.ObjectID, InstanceID := object.ID }]
      let resource : ResourceAttribute :=
        { Basic := { Action := action, Type_ := ResourceType.ModelAttribute,
                     Name := attr.PropertyName, InstanceID := attr.ID },
          SupplierAccount := am.GetOwnerID header,
          BusinessID := businessID,
          Layers := parentLayers }
      attributeResourcesLoop am header action businessID objectMap classificationMap rest
        (resources ++ [resource])

/-- Function `makeResourceByAttributes` (attribute.go 59-138). -/
def makeResourceByAttributes (am : AuthManager) (header : Header) (action : Action)
    (attributes : List Attribute) (log : List Call) :
    Except Err (List ResourceAttribute) × List Call :=
  let objectIDs := attributes.map (fun attr => attr.ObjectID)
  match collectObjectsByObjectIDs am header objectIDs log with
  | (.error err, log1) =>
    (.error (Err.wrap
      "register model attributes failed, get related models failed, err: %+v" err), log1)
  | (.ok objects, log1) =>
    let objectMap := objectMapOf objects []
    match ExtractBusinessIDFromObjects am objects with
    | .error err =>
      (.error (Err.wrap "make auth resource for model attribute failed, err: %+v" err), log1)
    | .ok businessID =>
      let classificationIDs := objects.map (fun object => object.ObjCls)
      match collectClassificationsByClassificationIDs am header classificationIDs log1 with
      | (.error err, log2) =>
        (.error (Err.wrap
          "register model attributes failed, get related models failed, err: %+v" err), log2)
      | (.ok classifications, log2) =>
        let classificationMap := classificationMapOf classifications []
        (attributeResourcesLoop am header action businessID objectMap classificationMap
          attributes [], log2)

/-- Function `RegisterModelAttribute` (attribute.go 140-155). -/
def RegisterModelAttribute (am : AuthManager) (header : Header) (attributes : List Attribute)
    (log : List Call) : Option Err × List Call :=
  if attributes.length = 0 then (none, log)
  else if am.RegisterModelAttributeEnabled = false then (none, log)
  else
    match makeResourceByAttributes am header Action.EmptyAction attributes log with
    | (.error err, log1) =>
      (some (Err.wrap "register model attribute failed, err: %+v" err), log1)
    | (.ok resources, log1) =>
      (am.RegisterResource log1 resources, log1 ++ [Call.RegisterResource resources])

/-- Function `DeregisterModelAttribute` (attribute.go 157-172). -/
def DeregisterModelAttribute (am : AuthManager) (header : Header)
    (attributes : List Attribute) (log : List Call) : Option Err × List Call :=
  if attributes.length = 0 then (none, log)
  else if am.RegisterModelAttributeEnabled = false then (none, log)
  else
    match makeResourceByAttributes am header Action.EmptyAction attributes log with
    | (.error err, log1) =>
      (some (Err.wrap "deregister model attribute failed, err: %+v" err), log1)
    | (.ok resources, log1) =>
      (am.DeregisterResource log1 resources, log1 ++ [Call.DeregisterResource resources])

/-- Function `DeregisterModelAttributeByID` (attribute.go 174-188). -/
def DeregisterModelAttributeByID (am : AuthManager) (header : Header)
    (attributeIDs : List Int) (log : List Call) : Option Err × List Call :=
  if attributeIDs.length = 0 then (none, log)
  else if am.RegisterModelAttributeEnabled = false then (none, log)
  else
    match collectAttributesByAttributeIDs am header attributeIDs log with
    | (.error err, log1) =>
      (some (Err.wrap
        "update registered model attribute failed, get attribute by id failed, err: %+v" err),
       log1)
    | (.ok attributes, log1) => DeregisterModelAttribute am header attributes log1

/-- Function `AuthorizeModelAttribute` (attribute.go 190-209). -/
def AuthorizeModelAttribute (am : AuthManager) (header : Header) (action : Action)
    (attributes : List Attribute) (log : List Call) : Option Err × List Call :=
  if attributes.length = 0 then (none, log)
  else if am.RegisterModelAttributeEnabled = false then
    let objectIDs := attributes.map (fun attr => attr.ObjectID)
    (am.AuthorizeByObjectID log header Action.Update objectIDs,
     log ++ [Call.AuthorizeByObjectID Action.Update objectIDs])
  else
    match makeResourceByAttributes am header action attributes log with
    | (.error err, log1) =>
      (some (Err.wrap "authorize model attribute failed, err: %+v" err), log1)
    | (.ok resources, log1) =>
      (am.RegisterResource log1 resources, log1 ++ [Call.RegisterResource resources])

/-- Function `UpdateRegisteredModelAttribute` (attribute.go 211-226). -/
def UpdateRegisteredModelAttribute (am : AuthManager) (header : Header)
    (attributes : List Attribute) (log : List Call) : Option Err × List Call :=
  if attributes.length = 0 then (none, log)
  else if am.RegisterModelAttributeEnabled = false then (none, log)
  else
    match makeResourceByAttributes am header Action.EmptyAction attributes log with
    | (.error err, log1) =>
      (some (Err.wrap "update registered model attribute failed, err: %+v" err), log1)
    | (.ok resources, log1) =>
      (am.RegisterResource log1 resources, log1 ++ [Call.RegisterResource resources])

/-- Function `UpdateRegisteredModelAttributeByID` (attribute.go 228-242). -/
def UpdateRegisteredModelAttributeByID (am : AuthManager) (header : Header)
    (attributeIDs : List Int) (log : List Call) : Option Err × List Call :=
  if attributeIDs.length = 0 then (none, log)
  else if am.RegisterModelAttributeEnabled = false then (none, log)
  else
    match collectAttributesByAttributeIDs am header attributeIDs log with
    | (.error err, log1) =>
      (some (Err.wrap
        "update registered model attribute failed, get attribute by id failed, err: %+v" err),
       log1)
    | (.ok attributes, log1) => UpdateRegisteredModelAttribute am header attributes log1

/-- Function `AuthorizeByAttributeID` (attribute.go 244-259). -/
def AuthorizeByAttributeID (am : AuthManager) (header : Header) (action : Action)
    (attributeIDs : List Int) (log : List Call) : Option Err × List Call :=
  if attributeIDs.length = 0 then (none, log)
  else if am.RegisterModelAttributeEnabled = false then (none, log)
  else
    match collectAttributesByAttributeIDs am header attributeIDs log with
    | (.error err, log1) =>
      (some (Err.wrap "get attributes by id failed, err: %+v" err), log1)
    | (.ok attributes, log1) => AuthorizeModelAttribute am header action attributes log1

/-! ## Concrete collaborators used to evaluate the code -/

/-- A grant whose chains are the given lists of resource identifiers. -/
def grantOf (chains : List (List String)) : AuthorizedResource :=
  { ActionID := "get", ResourceType := "audit_log",
    ResourceIDs := chains.map (fun chain => chain.map (fun id => ⟨"audit_log", id⟩)) }

/-- A decimal parser for the few numerals the examples use. -/
def smallInt (s : String) : Except Err Int :=
  match [("0", (0 : Int)), ("1", 1), ("2", 2), ("3", 3), ("5", 5), ("7", 7), ("10", 10)].lookup s
  with
  | some v => .ok v
  | none => .error (Err.external "not numeric")

/-- The decoder of model records used by the examples. -/
def decodeObject (r : Record) : Except Err Object :=
  match r.lookup "id", r.lookup "bk_obj_id", r.lookup "bk_classification_id" with
  | some id, some o, some c =>
    (match smallInt id with
      | .ok v => .ok ⟨v, o, c, []⟩
      | .error err => .error err)
  | _, _, _ => .error (Err.external "malformed model")

/-- The decoder of classification records used by the examples. -/
def decodeClassification (r : Record) : Except Err Classification :=
  match r.lookup "id", r.lookup "bk_classification_id" with
  | some id, some c =>
    (match smallInt id with
      | .ok v => .ok ⟨v, c, []⟩
      | .error err => .error err)
  | _, _ => .error (Err.external "malformed classification")

/-- The decoder of attribute records used by the examples. -/
def decodeAttribute (r : Record) : Except Err Attribute :=
  match r.lookup "id", r.lookup "bk_obj_id", r.lookup "bk_property_name" with
  | some id, some o, some n =>
    (match smallInt id with
      | .ok v => .ok ⟨v, o, n⟩
      | .error err => .error err)
  | _, _, _ => .error (Err.external "malformed attribute")

/-- A manager whose policy engine answers `businessList` and `grants` and accepts
every submission and check, whose store answers `store`, and whose map is visited
in the order `order`. -/
def fixtureManager (businessList : List Int) (grants : Int → List AuthorizedResource)
    (store : String → MapStr → List Record) (order : RangeOrder Int (List String)) :
    AuthManager :=
  { RegisterModelAttributeEnabled := true
    SkipReadAuthorization := false
    ParseCommonInfo := fun _ => .ok "admin"
    GetOwnerID := fun _ => "0"
    GetInt64ByInterface := smallInt
    ParseInt := smallInt
    GetAuthorizedBusinessList := fun _ _ => .ok businessList
    GetAuthorizedAuditList := fun _ _ businessID => .ok (grants businessID)
    ReadInstance := fun _ _ table cond => .ok (store table cond)
    ParseAttribute := decodeAttribute
    ParseClassification := decodeClassification
    ParseObject := decodeObject
    rangeOrder := order
    RegisterResource := fun _ _ => none
    DeregisterResource := fun _ _ => none
    UpdateResource := fun _ _ => none
    AuthorizeByObjectID := fun _ _ _ _ => none }

/-- The record of the model with numeric id `id`: models 1, 2, 3 are A, B, C. -/
def modelRecord (id : Int) : Option Record :=
  if id = 1 then some [("id", "1"), ("bk_obj_id", "A"), ("bk_classification_id", "infra")]
  else if id = 2 then some [("id", "2"), ("bk_obj_id", "B"), ("bk_classification_id", "infra")]
  else if id = 3 then some [("id", "3"), ("bk_obj_id", "C"), ("bk_classification_id", "infra")]
  else none

/-- A store holding the models A, B, C: a filter `id in ids` returns their records. -/
def storeABC (_table : String) (cond : MapStr) : List Record :=
  match cond with
  | [(_, CondValue.inInt ids)] => ids.filterMap modelRecord
  | _ => []

/-- Grants: the global tier holds the models 1 and 2, tenant 7 holds the model 3. -/
def grantsGlobalAnd7 (businessID : Int) : List AuthorizedResource :=
  if businessID = 0 then [grantOf [["1"], ["2"]]]
  else if businessID = 7 then [grantOf [["3"]]]
  else []

/-- Grants: tenant 7 holds the model 3, nobody else holds anything. -/
def grantsOnly7 (businessID : Int) : List AuthorizedResource :=
  if businessID = 7 then [grantOf [["3"]]] else []

/-! ## Observers, predicates and sample data used in the statements -/

/-- The tenant clause of a predicate: what `bk_biz_id` is compared with, if anything. -/
def tenantClause (p : MapStr) : Option CondValue := p.lookup BKAppIDField

/-- Whether a call is a lookup in the store. -/
def Call.isStoreLookup : Call → Bool
  | Call.ReadInstance _ _ => true
  | _ => false

/-- The invariant of `authorizedBusinessModelMap`: keys pairwise distinct, no empty value. -/
def MapInv (m : GoMap Int (List String)) : Prop :=
  (m.map Prod.fst).Nodup ∧ ∀ e ∈ m, e.2 ≠ []

/-- Grants: every tenant has one grant entry whose only identifier chain is empty. -/
def grantsEmptyChains (_businessID : Int) : List AuthorizedResource := [grantOf [[]]]

/-- The grants of tenant `b` resolve to the model identifiers `S`: whatever was
called before, the engine returns a grant list for `b` whose leaf identifiers are
`ids`; if there is none, `S` is empty; otherwise the model lookup of `ids`
succeeds and returns models whose identifiers are `S`, in that order. -/
def Resolves (am : AuthManager) (header : Header) (user : String) (b : Int) (ids : List Int)
    (S : List String) : Prop :=
  (∀ h : List Call, ∃ auditList, am.GetAuthorizedAuditList h user b = .ok auditList ∧
      collectModelIDs am auditList [] = .ok ids) ∧
  (ids = [] → S = []) ∧
  (ids ≠ [] → ∀ h : List Call, ∃ objects,
      (collectObjectsByRawIDs am header ids h).1 = .ok objects ∧
      objects.map (fun object => object.ObjectID) = S)

/-- The leaf identifiers of the grants `grantsGlobalAnd7`. -/
def idsGlobalAnd7 (b : Int) : List Int :=
  if b = 0 then [1, 2] else if b = 7 then [3] else []

/-- The model identifiers the grants `grantsGlobalAnd7` resolve to in `storeABC`. -/
def namesGlobalAnd7 (b : Int) : List String :=
  if b = 0 then ["A", "B"] else if b = 7 then ["C"] else []

/-- The tenant value of a classification: its `bk_biz_id` label, 0 when absent. -/
def Classification.tenant (am : AuthManager) (c : Classification) : Int :=
  (Label.Int64 am c.Label LabelBusinessID).1

/-- The tenant label of a classification is absent or a well-formed integer. -/
def Classification.labelOk (am : AuthManager) (c : Classification) : Prop :=
  c.Label.lookup LabelBusinessID = none ∨
    ∃ value v, c.Label.lookup LabelBusinessID = some value ∧ am.ParseInt value = .ok v

/-- A store holding the attributes 1 and 2 of the model host, whatever is asked. -/
def storeTwoAttributes (_table : String) (_cond : MapStr) : List Record :=
  [[("id", "1"), ("bk_obj_id", "host"), ("bk_property_name", "name")],
   [("id", "2"), ("bk_obj_id", "host"), ("bk_property_name", "ip")]]

/-- A store holding the single classification infra, whatever is asked. -/
def storeOneClassification (_table : String) (_cond : MapStr) : List Record :=
  [[("id", "10"), ("bk_classification_id", "infra")]]

/-- A store holding nothing. -/
def storeNothing (_table : String) (_cond : MapStr) : List Record := []

/-- The descriptor the loop of `makeResourceByAttributes` builds for one attribute
when the classification of its model is present in `classificationMap`. -/
def attributeResource (am : AuthManager) (header : Header) (action : Action)
    (businessID : Int) (objectMap : GoMap String Object)
    (classificationMap : GoMap String Classification) (attr : Attribute) : ResourceAttribute :=
  { Basic := { Action := action, Type_ := ResourceType.ModelAttribute,
               Name := attr.PropertyName, InstanceID := attr.ID },
    SupplierAccount := am.GetOwnerID header,
    BusinessID := businessID,
    Layers :=
      [{ Type_ := ResourceType.Model,
         Name := ((GoMap.get? classificationMap
           ((GoMap.get? objectMap attr.ObjectID).getD Object.zero).ObjCls).getD
             Classification.zero).ClassificationID,
         InstanceID := ((GoMap.get? classificationMap
           ((GoMap.get? objectMap attr.ObjectID).getD Object.zero).ObjCls).getD
             Classification.zero).ID },
       { Type_ := ResourceType.Model,
         Name := ((GoMap.get? objectMap attr.ObjectID).getD Object.zero).ObjectID,
         InstanceID := ((GoMap.get? objectMap attr.ObjectID).getD Object.zero).ID }] }

/-- A store holding the model host (id 5, classification infra) and the
classification infra (id 10). -/
def storeHostInfra (table : String) (_cond : MapStr) : List Record :=
  if table = BKTableNameObjDes then
    [[("id", "5"), ("bk_obj_id", "host"), ("bk_classification_id", "infra")]]
  else if table = BKTableNameObjClassifiction then
    [[("id", "10"), ("bk_classification_id", "infra")]]
  else []

/-- The descriptor of the attribute `id` named `name` of the model host, as built by
the code for the store `storeHostInfra`. -/
def hostAttributeResource (action : Action) (id : Int) (name : String) : ResourceAttribute :=
  { Basic := { Action := action, Type_ := ResourceType.ModelAttribute, Name := name,
               InstanceID := id },
    SupplierAccount := "0", BusinessID := 0,
    Layers := [⟨ResourceType.Model, "infra", 10⟩, ⟨ResourceType.Model, "host", 5⟩] }

/-- A store that honours the filter it is given: of the records `data` holds for
`table` it returns, in stored order, those whose filtered field has one of the
requested values. -/
def filteringStore (data : String → List Record) (table : String) (cond : MapStr) :
    List Record :=
  match cond with
  | [(field, CondValue.inStr vs)] =>
    (data table).filter (fun r =>
      match r.lookup field with
      | some v => decide (v ∈ vs)
      | none => false)
  | [(field, CondValue.inInt vs)] =>
    (data table).filter (fun r =>
      match r.lookup field with
      | some v =>
        (match smallInt v with
          | .ok n => decide (n ∈ vs)
          | .error _ => false)
      | none => false)
  | _ => []

/-- Stored records: the model table holds two records with the identifier host
(ids 5 and 7), both without classification, and no record for switch; the
classification table holds one classification with the empty identifier (id 10). -/
def dataDuplicateHost (table : String) : List Record :=
  if table = BKTableNameObjDes then
    [[("id", "5"), ("bk_obj_id", "host"), ("bk_classification_id", "")],
     [("id", "7"), ("bk_obj_id", "host"), ("bk_classification_id", "")]]
  else if table = BKTableNameObjClassifiction then
    [[("id", "10"), ("bk_classification_id", "")]]
  else []

/-- A manager with the attribute registration toggle disabled whose model-level
check denies every request. -/
def disabledDenyingManager : AuthManager :=
  { fixtureManager [] grantsOnly7 storeTwoAttributes (RangeOrder.insertion Int (List String)) with
    RegisterModelAttributeEnabled := false
    AuthorizeByObjectID := fun _ _ _ _ => some (Err.external "no permission") }

/-- A manager with the attribute registration toggle disabled and the collaborators
of `fixtureManager`. -/
def disabledManager : AuthManager :=
  { fixtureManager [] grantsOnly7 storeHostInfra (RangeOrder.insertion Int (List String)) with
    RegisterModelAttributeEnabled := false }

/-- A manager whose engine rejects the update of the resource with InstanceID 2 and
accepts every other update. -/
def secondUpdateFailsManager : AuthManager :=
  { fixtureManager [] grantsOnly7 storeHostInfra (RangeOrder.insertion Int (List String)) with
    UpdateResource := fun _ resource =>
      if resource.Basic.InstanceID = 2 then some (Err.external "update failed") else none }

/-- The descriptor `makeResourcesByClassifications` builds for the classification
`id` named `name` with the empty action, tenant 0 and owner "0". -/
def classificationResource (id : Int) (name : String) : ResourceAttribute :=
  { Basic := { Action := Action.EmptyAction, Type_ := ResourceType.ModelClassification,
               Name := name, InstanceID := id },
    SupplierAccount := "0", BusinessID := 0, Layers := [] }

/-- The two store lookups `makeResourceByAttributes` makes for attributes of the
model host in the store `storeHostInfra`. -/
def hostInfraLookups : List Call :=
  [Call.ReadInstance BKTableNameObjDes [(BKObjIDField, CondValue.inStr ["host"])],
   Call.ReadInstance BKTableNameObjClassifiction
     [(BKClassificationIDField, CondValue.inStr ["infra"])]]

/-! ## Properties of the map operations -/

theorem GoMap.mem_delete {κ ν : Type} [DecidableEq κ] (m : GoMap κ ν) (k : κ) (e : κ × ν) :
    e ∈ GoMap.delete m k ↔ e ∈ m ∧ e.1 ≠ k := by
  simp [GoMap.delete, List.mem_filter]

theorem GoMap.keys_delete_nodup {κ ν : Type} [DecidableEq κ] (m : GoMap κ ν) (k : κ)
    (h : (m.map Prod.fst).Nodup) : ((GoMap.delete m k).map Prod.fst).Nodup := by
  unfold GoMap.delete
  exact List.Nodup.sublist (List.Sublist.map _ (List.filter_sublist m)) h

theorem GoMap.delete_of_not_mem {κ ν : Type} [DecidableEq κ] (m : GoMap κ ν) (k : κ)
    (h : ∀ e ∈ m, e.1 ≠ k) : GoMap.delete m k = m := by
  unfold GoMap.delete
  apply List.filter_eq_self.mpr
  intro e he
  simpa using h e he

theorem GoMap.keys_set_nodup {κ ν : Type} [DecidableEq κ] (m : GoMap κ ν) (k : κ) (v : ν)
    (h : (m.map Prod.fst).Nodup) : ((GoMap.set m k v).map Prod.fst).Nodup := by
  unfold GoMap.set
  rw [List.map_append, List.nodup_append]
  refine ⟨GoMap.keys_delete_nodup m k h, by simp, ?_⟩
  intro a ha hb
  simp only [List.map_cons, List.map_nil, List.mem_singleton] at hb
  obtain ⟨e, he, rfl⟩ := List.mem_map.mp ha
  exact ((GoMap.mem_delete m k e).mp he).2 hb

theorem GoMap.mem_set {κ ν : Type} [DecidableEq κ] (m : GoMap κ ν) (k : κ) (v : ν)
    (e : κ × ν) : e ∈ GoMap.set m k v ↔ (e ∈ m ∧ e.1 ≠ k) ∨ e = (k, v) := by
  simp [GoMap.set, GoMap.mem_delete]

theorem GoMap.get?_some {κ ν : Type} [DecidableEq κ] (m : GoMap κ ν) (k : κ) (v : ν)
    (h : GoMap.get? m k = some v) : (k, v) ∈ m := by
  unfold GoMap.get? at h
  cases hf : m.find? (fun e => decide (e.1 = k)) with
  | none => simp [hf] at h
  | some e =>
    simp only [hf, Option.map_some', Option.some.injEq] at h
    have h1 := List.find?_some hf
    have h2 := List.mem_of_find?_eq_some hf
    simp only [decide_eq_true_eq] at h1
    have : e = (k, v) := Prod.ext h1 h
    exact this ▸ h2

theorem GoMap.get?_none {κ ν : Type} [DecidableEq κ] (m : GoMap κ ν) (k : κ)
    (h : GoMap.get? m k = none) : ∀ e ∈ m, e.1 ≠ k := by
  unfold GoMap.get? at h
  simp only [Option.map_eq_none', List.find?_eq_none, decide_eq_true_eq] at h
  exact h

/-! ## Properties of the helpers -/

theorem parseLoop_length {α : Type} (parse : Record → Except Err α) (format : String) :
    ∀ (info : List Record) (acc out : List α),
      parseLoop parse format info acc = .ok out → out.length = acc.length + info.length := by
  intro info
  induction info with
  | nil =>
    intro acc out h
    simp only [parseLoop, Except.ok.injEq] at h
    simp [h]
  | cons item rest ih =>
    intro acc out h
    unfold parseLoop at h
    split at h
    · exact absurd h (by simp)
    · have := ih _ _ h
      simp only [List.length_append, List.length_cons, List.length_nil] at this
      simp only [List.length_cons]
      omega

theorem collectObjectsByRawIDs_ne_nil (am : AuthManager) (header : Header) (ids : List Int)
    (log : List Call) (objects : List Object) (log1 : List Call)
    (h : collectObjectsByRawIDs am header ids log = (.ok objects, log1)) : objects ≠ [] := by
  unfold collectObjectsByRawIDs at h
  simp only at h
  split at h
  · simp at h
  · split at h
    · simp at h
    · split at h
      · simp at h
      · rename_i info _ hlen _
        simp only [Prod.mk.injEq] at h
        have := parseLoop_length _ _ _ _ _ h.1
        intro hnil
        simp only [hnil, List.length_nil] at this
        omega

/-! ## Properties of the predicate synthesis -/

theorem scopedLoop_eq : ∀ (l : List (Int × List String)) (cond : List MapStr) (has : Bool),
    scopedLoop l cond has
      = (cond ++ l.map (fun e => scopedItem e.1 e.2), has || !l.isEmpty) := by
  intro l
  induction l with
  | nil => intro cond has; simp [scopedLoop]
  | cons e rest ih =>
    intro cond has
    obtain ⟨b, ids⟩ := e
    simp [scopedLoop, ih]

theorem tenantClause_scopedItem (b : Int) (ids : List String) :
    tenantClause (scopedItem b ids) = some (CondValue.eqInt b) := by
  simp [tenantClause, scopedItem, List.lookup, BKAppIDField, BKOpTargetField]

theorem tenantClause_globalItem (ids : List String) : tenantClause (globalItem ids) = none := by
  simp [tenantClause, globalItem, List.lookup, BKAppIDField, BKOpTargetField]

theorem auditLoop_inv (am : AuthManager) (header : Header) (user : String) :
    ∀ (bs : List Int) (m : GoMap Int (List String)) (log : List Call)
      (m1 : GoMap Int (List String)) (log1 : List Call),
      auditLoop am header user bs m log = (.ok m1, log1) → MapInv m → MapInv m1 := by
  intro bs
  induction bs with
  | nil =>
    intro m log m1 log1 h hm
    simp only [auditLoop, Prod.mk.injEq, Except.ok.injEq] at h
    exact h.1 ▸ hm
  | cons b rest ih =>
    intro m log m1 log1 h hm
    unfold auditLoop at h
    simp only at h
    split at h
    · simp at h
    · split at h
      · simp at h
      · split at h
        · exact ih _ _ _ _ h hm
        · split at h
          · simp at h
          · rename_i objects log2 hobj
            refine ih _ _ _ _ h ⟨GoMap.keys_set_nodup _ _ _ hm.1, ?_⟩
            intro e he
            rcases (GoMap.mem_set _ _ _ _).mp he with h1 | h1
            · exact hm.2 e h1.1
            · have hne := collectObjectsByRawIDs_ne_nil _ _ _ _ _ _ hobj
              rw [h1]
              simpa using hne

theorem conditionsOfMap_has_iff (order : RangeOrder Int (List String))
    (m : GoMap Int (List String)) :
    (conditionsOfMap order m).2 = true ↔ (conditionsOfMap order m).1 ≠ [] := by
  unfold conditionsOfMap
  split
  · split
    · simp [scopedLoop_eq]
    · simp [scopedLoop_eq, List.isEmpty_iff]
  · simp [scopedLoop_eq, List.isEmpty_iff]

theorem conditionsOfMap_shape (order : RangeOrder Int (List String))
    (m : GoMap Int (List String)) (hm : MapInv m) :
    ∃ (pre : List MapStr) (entries : GoMap Int (List String)),
      (conditionsOfMap order m).1 = pre ++ entries.map (fun e => scopedItem e.1 e.2) ∧
      (pre = [] ∨ ∃ ids, pre = [globalItem ids]) ∧
      (entries.map Prod.fst).Nodup ∧ (∀ e ∈ entries, e.1 ≠ 0) := by
  unfold conditionsOfMap
  split
  · rename_i objectIDs hget
    have hmem := GoMap.get?_some _ _ _ hget
    have hne : objectIDs ≠ [] := hm.2 _ hmem
    have hlen : objectIDs.length > 0 := List.length_pos.mpr hne
    rw [if_pos hlen]
    refine ⟨[globalItem objectIDs], order.order (GoMap.delete m 0), by simp [scopedLoop_eq],
      Or.inr ⟨objectIDs, rfl⟩, ?_, ?_⟩
    · exact ((order.perm _).map Prod.fst).nodup_iff.mpr (GoMap.keys_delete_nodup m 0 hm.1)
    · intro e he
      exact ((GoMap.mem_delete m 0 e).mp ((order.perm _).mem_iff.mp he)).2
  · rename_i hget
    refine ⟨[], order.order m, by simp [scopedLoop_eq], Or.inl rfl, ?_, ?_⟩
    · exact ((order.perm _).map Prod.fst).nodup_iff.mpr hm.1
    · intro e he
      exact GoMap.get?_none m 0 hget e ((order.perm _).mem_iff.mp he)

theorem MakeAuthorizedAuditListCondition_shape (am : AuthManager) (header : Header)
    (businessID : Int) (log : List Call) :
    (∃ err log1, MakeAuthorizedAuditListCondition am header businessID log
        = (⟨[], false, some err⟩, log1)) ∨
    (∃ user businessIDs log1 m log2,
        auditLoop am header user (businessIDs ++ [0]) [] log1 = (.ok m, log2) ∧
        MakeAuthorizedAuditListCondition am header businessID log
          = (⟨(conditionsOfMap am.rangeOrder m).1, (conditionsOfMap am.rangeOrder m).2, none⟩,
             log2)) := by
  unfold MakeAuthorizedAuditListCondition
  split
  · exact Or.inl ⟨_, _, rfl⟩
  · rename_i user _
    simp only
    split
    · exact Or.inl ⟨_, _, rfl⟩
    · rename_i businessIDs log1 _
      split
      · exact Or.inl ⟨_, _, rfl⟩
      · rename_i m log2 hloop
        exact Or.inr ⟨user, businessIDs, log1, m, log2, hloop, rfl⟩

theorem collectChainIDs_all_empty (am : AuthManager) :
    ∀ (chains : List (List RscTypeAndID)) (modelIDs : List Int),
      (∀ chain ∈ chains, chain = []) → collectChainIDs am chains modelIDs = .ok modelIDs := by
  intro chains
  induction chains with
  | nil => intro modelIDs _; rfl
  | cons chain rest ih =>
    intro modelIDs h
    have hc : chain = [] := h chain (List.mem_cons_self _ _)
    subst hc
    simp only [collectChainIDs, List.getLast?_nil]
    exact ih _ (fun c hmem => h c (List.mem_cons_of_mem _ hmem))

theorem collectModelIDs_all_empty (am : AuthManager) :
    ∀ (auditList : List AuthorizedResource) (modelIDs : List Int),
      (∀ a ∈ auditList, ∀ chain ∈ a.ResourceIDs, chain = []) →
      collectModelIDs am auditList modelIDs = .ok modelIDs := by
  intro auditList
  induction auditList with
  | nil => intro modelIDs _; rfl
  | cons a rest ih =>
    intro modelIDs h
    simp only [collectModelIDs,
      collectChainIDs_all_empty am _ _ (h a (List.mem_cons_self _ _))]
    exact ih _ (fun c hmem => h c (List.mem_cons_of_mem _ hmem))

theorem auditLoop_no_grants (am : AuthManager) (header : Header) (user : String) :
    ∀ (bs : List Int) (m : GoMap Int (List String)) (log : List Call),
      (∀ (h : List Call) (b : Int), b ∈ bs →
        ∃ l, am.GetAuthorizedAuditList h user b = .ok l ∧
          ∀ a ∈ l, ∀ chain ∈ a.ResourceIDs, chain = []) →
      auditLoop am header user bs m log
        = (.ok m, log ++ bs.map (Call.GetAuthorizedAuditList user)) := by
  intro bs
  induction bs with
  | nil => intro m log _; simp [auditLoop]
  | cons b rest ih =>
    intro m log h
    obtain ⟨l, hl, hempty⟩ := h log b (List.mem_cons_self _ _)
    unfold auditLoop
    simp only [hl, collectModelIDs_all_empty am l [] hempty, List.length_nil, if_true]
    rw [ih _ _ (fun h1 b1 hb1 => h h1 b1 (List.mem_cons_of_mem _ hb1))]
    simp

/-! ## Claims about `MakeAuthorizedAuditListCondition` -/

/-- C1 (defect of the code): a request scoped to tenant 7, by a caller whose only
audit grant is the model C inside tenant 7, never asks the engine for the grants
of tenant 7: the only call is the one for the global tier 0, no predicate is
returned and hasAuthorization is false; the same caller asking with scope 0 and
authorized tenant list [7] obtains the predicate `op_target in [C] AND
bk_biz_id == 7`. -/
theorem C1_requested_tenant_is_not_a_candidate :
    MakeAuthorizedAuditListCondition
        (fixtureManager [7] grantsOnly7 storeABC (RangeOrder.insertion Int (List String))) [] 7 []
      = (⟨[], false, none⟩, [Call.GetAuthorizedAuditList "admin" 0]) ∧
    (MakeAuthorizedAuditListCondition
        (fixtureManager [7] grantsOnly7 storeABC (RangeOrder.insertion Int (List String))) [] 0 []).1
      = ⟨[scopedItem 7 ["C"]], true, none⟩ := by
  decide

/-- C3: when the header parses, the authorized tenant list (asked for scope 0 only)
is returned, and every grant list of a candidate tenant is empty or holds only
empty identifier chains, the function returns no predicate, hasAuthorization =
false and no error, and none of the calls it makes is a store lookup. -/
theorem C3_empty_grants_give_no_predicate (am : AuthManager) (header : Header)
    (businessID : Int) (log : List Call) (user : String) (ts : List Int)
    (hparse : am.ParseCommonInfo header = .ok user)
    (hlist : businessID = 0 → am.GetAuthorizedBusinessList log user = .ok ts)
    (hgrants : ∀ (h : List Call) (b : Int), (b = 0 ∨ (businessID = 0 ∧ b ∈ ts)) →
      ∃ l, am.GetAuthorizedAuditList h user b = .ok l ∧
        ∀ a ∈ l, ∀ chain ∈ a.ResourceIDs, chain = []) :
    ∃ calls, MakeAuthorizedAuditListCondition am header businessID log
        = (⟨[], false, none⟩, log ++ calls) ∧
      ∀ c ∈ calls, c.isStoreLookup = false := by
  unfold MakeAuthorizedAuditListCondition
  simp only [hparse]
  by_cases hb : businessID = 0
  · simp only [hb, if_true, hlist hb]
    rw [auditLoop_no_grants am header user (ts ++ [0]) [] _ (fun h b hmem => hgrants h b (by
      rcases List.mem_append.mp hmem with h1 | h1
      · exact Or.inr ⟨hb, h1⟩
      · exact Or.inl (by simpa using h1)))]
    refine ⟨Call.GetAuthorizedBusinessList user ::
      (ts ++ [0]).map (Call.GetAuthorizedAuditList user), ?_, ?_⟩
    · simp [conditionsOfMap, GoMap.get?, scopedLoop_eq,
        (am.rangeOrder.perm []).eq_nil]
    · intro c hc
      simp only [List.mem_cons, List.mem_map] at hc
      rcases hc with rfl | ⟨b, _, rfl⟩ <;> rfl
  · simp only [hb, if_false]
    rw [auditLoop_no_grants am header user ([] ++ [0]) [] _ (fun h b hmem => hgrants h b (by
      exact Or.inl (by simpa using hmem)))]
    refine ⟨[Call.GetAuthorizedAuditList user 0], ?_, ?_⟩
    · simp [conditionsOfMap, GoMap.get?, scopedLoop_eq,
        (am.rangeOrder.perm []).eq_nil]
    · intro c hc
      simp only [List.mem_singleton] at hc
      subst hc
      rfl

/-- C3 witness: scope 0, authorized tenants [7], only empty identifier chains. -/
theorem C3_empty_grants_give_no_predicate_witness :
    ∃ calls, MakeAuthorizedAuditListCondition
        (fixtureManager [7] grantsEmptyChains storeABC (RangeOrder.insertion Int (List String)))
        [] 0 [] = (⟨[], false, none⟩, [] ++ calls) ∧
      ∀ c ∈ calls, c.isStoreLookup = false :=
  C3_empty_grants_give_no_predicate
    (fixtureManager [7] grantsEmptyChains storeABC (RangeOrder.insertion Int (List String)))
    [] 0 [] "admin" [7] rfl (fun _ => rfl)
    (fun _ _ _ => ⟨[grantOf [[]]], rfl, by decide⟩)

/-- C4: whatever the collaborators answer, a result without error has
hasAuthorization = true exactly when its predicate list is non-empty, and a result
with an error has the nil predicate list and hasAuthorization = false. -/
theorem C4_hasAuthorization_iff_some_predicate (am : AuthManager) (header : Header)
    (businessID : Int) (log : List Call) :
    ((MakeAuthorizedAuditListCondition am header businessID log).1.err = none →
      ((MakeAuthorizedAuditListCondition am header businessID log).1.hasAuthorization = true ↔
        (MakeAuthorizedAuditListCondition am header businessID log).1.cond ≠ [])) ∧
    ((MakeAuthorizedAuditListCondition am header businessID log).1.err ≠ none →
      (MakeAuthorizedAuditListCondition am header businessID log).1.cond = [] ∧
      (MakeAuthorizedAuditListCondition am header businessID log).1.hasAuthorization = false) := by
  rcases MakeAuthorizedAuditListCondition_shape am header businessID log with
    ⟨err, log1, h⟩ | ⟨user, businessIDs, log1, m, log2, _, h⟩
  · rw [h]; simp
  · rw [h]
    simp only [ne_eq, not_true_eq_false, false_implies, and_true, true_implies]
    exact conditionsOfMap_has_iff _ _

/-- C5: in every result (the predicate list of a failed call is empty), at most one
predicate has no tenant clause, no predicate has the tenant clause
`bk_biz_id == 0`, and the tenant clauses of the predicates that have one are
pairwise distinct. -/
theorem C5_tenant_clauses_distinct_and_nonzero (am : AuthManager) (header : Header)
    (businessID : Int) (log : List Call) :
    ((MakeAuthorizedAuditListCondition am header businessID log).1.cond.filter
        (fun p => (tenantClause p).isNone)).length ≤ 1 ∧
    (∀ p ∈ (MakeAuthorizedAuditListCondition am header businessID log).1.cond,
        tenantClause p ≠ some (CondValue.eqInt 0)) ∧
    ((MakeAuthorizedAuditListCondition am header businessID log).1.cond.filterMap
        tenantClause).Nodup := by
  rcases MakeAuthorizedAuditListCondition_shape am header businessID log with
    ⟨err, log1, h⟩ | ⟨user, businessIDs, log1, m, log2, hloop, h⟩
  · rw [h]; simp
  · rw [h]
    have hinv : MapInv m := auditLoop_inv am header user _ _ _ _ _ hloop ⟨by simp, by simp⟩
    obtain ⟨pre, entries, hcond, hpre, hnodup, hnz⟩ :=
      conditionsOfMap_shape am.rangeOrder m hinv
    simp only [hcond]
    have hfilter : (entries.map (fun e => scopedItem e.1 e.2)).filter
        (fun p => (tenantClause p).isNone) = [] := by
      apply List.filter_eq_nil_iff.mpr
      intro p hp
      obtain ⟨e, _, rfl⟩ := List.mem_map.mp hp
      simp [tenantClause_scopedItem]
    have hfm : (entries.map (fun e => scopedItem e.1 e.2)).filterMap tenantClause
        = (entries.map Prod.fst).map CondValue.eqInt := by
      rw [List.filterMap_map, List.map_map]
      rw [← List.filterMap_eq_map]
      apply List.filterMap_congr
      intro e _
      simp [tenantClause_scopedItem]
    have hinj : Function.Injective CondValue.eqInt := fun a b hab => by
      injection hab
    refine ⟨?_, ?_, ?_⟩
    · rw [List.filter_append, hfilter]
      rcases hpre with rfl | ⟨ids, rfl⟩ <;> simp [List.filter_cons]
      split <;> simp
    · intro p hp
      rcases List.mem_append.mp hp with h1 | h1
      · rcases hpre with rfl | ⟨ids, rfl⟩
        · simp at h1
        · simp only [List.mem_singleton] at h1
          simp [h1, tenantClause_globalItem]
      · obtain ⟨e, he, rfl⟩ := List.mem_map.mp h1
        rw [tenantClause_scopedItem]
        intro hcontra
        injection hcontra with h2
        injection h2 with h3
        exact hnz e he h3
    · rw [List.filterMap_append, hfm]
      have hpre2 : pre.filterMap tenantClause = [] := by
        rcases hpre with rfl | ⟨ids, rfl⟩
        · rfl
        · simp [List.filterMap_cons, tenantClause_globalItem]
      rw [hpre2, List.nil_append]
      exact hnodup.map hinj

theorem GoMap.get?_append_singleton {κ ν : Type} [DecidableEq κ] (l : GoMap κ ν) (k : κ) (v : ν)
    (h : ∀ e ∈ l, e.1 ≠ k) : GoMap.get? (l ++ [(k, v)]) k = some v := by
  unfold GoMap.get?
  have hnone : l.find? (fun e => decide (e.1 = k)) = none := by
    simp only [List.find?_eq_none, decide_eq_true_eq]
    exact h
  simp [List.find?_append, hnone]

theorem GoMap.delete_append_singleton {κ ν : Type} [DecidableEq κ] (l : GoMap κ ν) (k : κ)
    (v : ν) (h : ∀ e ∈ l, e.1 ≠ k) : GoMap.delete (l ++ [(k, v)]) k = l := by
  have := GoMap.delete_of_not_mem l k h
  unfold GoMap.delete at this ⊢
  rw [List.filter_append, this]
  simp

theorem auditLoop_resolves (am : AuthManager) (header : Header) (user : String)
    (ids : Int → List Int) (S : Int → List String) :
    ∀ (bs : List Int) (m : GoMap Int (List String)) (log : List Call),
      bs.Nodup → (∀ b ∈ bs, ∀ e ∈ m, e.1 ≠ b) →
      (∀ b ∈ bs, Resolves am header user b (ids b) (S b)) →
      ∃ log1, auditLoop am header user bs m log
        = (.ok (m ++ (bs.filter (fun b => decide (S b ≠ []))).map (fun b => (b, S b))), log1) := by
  intro bs
  induction bs with
  | nil => intro m log _ _ _; exact ⟨log, by simp [auditLoop]⟩
  | cons b rest ih =>
    intro m log hnodup hfresh hres
    obtain ⟨hgr, hnil, hlook⟩ := hres b (List.mem_cons_self _ _)
    obtain ⟨auditList, hal, hids⟩ := hgr log
    have hnodup1 := List.nodup_cons.mp hnodup
    have hres1 : ∀ b1 ∈ rest, Resolves am header user b1 (ids b1) (S b1) :=
      fun b1 hb1 => hres b1 (List.mem_cons_of_mem _ hb1)
    unfold auditLoop
    simp only [hal, hids]
    by_cases hempty : ids b = []
    · have hS : S b = [] := hnil hempty
      simp only [hempty, List.length_nil, if_true]
      obtain ⟨log1, h1⟩ := ih m (log ++ [Call.GetAuthorizedAuditList user b]) hnodup1.2
        (fun b1 hb1 => hfresh b1 (List.mem_cons_of_mem _ hb1)) hres1
      refine ⟨log1, ?_⟩
      rw [h1]
      simp [List.filter_cons, hS]
    · have hlen : ¬ (ids b).length = 0 := fun h0 => hempty (List.length_eq_zero.mp h0)
      obtain ⟨objects, hobj, hmap⟩ :=
        hlook hempty (log ++ [Call.GetAuthorizedAuditList user b])
      have hpair : collectObjectsByRawIDs am header (ids b)
          (log ++ [Call.GetAuthorizedAuditList user b])
          = (.ok objects, (collectObjectsByRawIDs am header (ids b)
              (log ++ [Call.GetAuthorizedAuditList user b])).2) := by
        rw [← hobj]
      have hS : S b ≠ [] := by
        have := collectObjectsByRawIDs_ne_nil _ _ _ _ _ _ hpair
        rw [← hmap]
        simpa using this
      simp only [if_neg hlen]
      rw [hpair]
      simp only [hmap]
      have hset : GoMap.set m b (S b) = m ++ [(b, S b)] := by
        unfold GoMap.set
        rw [GoMap.delete_of_not_mem m b (hfresh b (List.mem_cons_self _ _))]
      rw [hset]
      obtain ⟨log1, h1⟩ := ih (m ++ [(b, S b)]) (collectObjectsByRawIDs am header (ids b)
          (log ++ [Call.GetAuthorizedAuditList user b])).2 hnodup1.2
        (fun b1 hb1 e he => by
          rcases List.mem_append.mp he with h2 | h2
          · exact hfresh b1 (List.mem_cons_of_mem _ hb1) e h2
          · simp only [List.mem_singleton] at h2
            subst h2
            intro heq
            have heq1 : b = b1 := heq
            exact hnodup1.1 (heq1 ▸ hb1)) hres1
      refine ⟨log1, ?_⟩
      rw [h1]
      simp [List.filter_cons, hS]

/-- C2: with tenant scope 0, an authorized tenant list `ts` of distinct non-zero
tenants, global grants resolving to a non-empty `S 0` and the grants of every
`t` in `ts` resolving to `S t`, the result is the unscoped predicate
`op_target in S 0` followed by a permutation of the predicates
`op_target in S t AND bk_biz_id == t`, one for each `t` of `ts` with non-empty
`S t`; hasAuthorization is true and there is no error. -/
theorem C2_global_then_one_predicate_per_tenant (am : AuthManager) (header : Header)
    (log : List Call) (user : String) (ts : List Int) (ids : Int → List Int)
    (S : Int → List String)
    (hparse : am.ParseCommonInfo header = .ok user)
    (hlist : am.GetAuthorizedBusinessList log user = .ok ts)
    (hnodup : ts.Nodup) (hnz : 0 ∉ ts)
    (hres : ∀ b, b = 0 ∨ b ∈ ts → Resolves am header user b (ids b) (S b))
    (hG : S 0 ≠ []) :
    ∃ entries : List MapStr,
      entries.Perm ((ts.filter (fun t => decide (S t ≠ []))).map
        (fun t => scopedItem t (S t))) ∧
      (MakeAuthorizedAuditListCondition am header 0 log).1
        = ⟨globalItem (S 0) :: entries, true, none⟩ := by
  have hnodup1 : (ts ++ [0]).Nodup := by
    rw [List.nodup_append]
    refine ⟨hnodup, by simp, ?_⟩
    intro a ha hb
    simp only [List.mem_singleton] at hb
    exact hnz (hb ▸ ha)
  obtain ⟨log1, hloop⟩ := auditLoop_resolves am header user ids S (ts ++ [0]) []
    (log ++ [Call.GetAuthorizedBusinessList user]) hnodup1 (by simp)
    (fun b hb => hres b (by
      rcases List.mem_append.mp hb with h1 | h1
      · exact Or.inr h1
      · exact Or.inl (by simpa using h1)))
  have hmap : ([] : GoMap Int (List String)) ++
      ((ts ++ [0]).filter (fun b => decide (S b ≠ []))).map (fun b => (b, S b))
      = (ts.filter (fun b => decide (S b ≠ []))).map (fun b => (b, S b)) ++ [(0, S 0)] := by
    simp [List.filter_append, List.filter_cons, hG]
  rw [hmap] at hloop
  have hfresh : ∀ e ∈ (ts.filter (fun b => decide (S b ≠ []))).map (fun b => (b, S b)),
      e.1 ≠ 0 := by
    intro e he
    obtain ⟨t, ht, rfl⟩ := List.mem_map.mp he
    intro h0
    exact hnz (h0 ▸ (List.mem_filter.mp ht).1)
  have hlen : (S 0).length > 0 := List.length_pos.mpr hG
  refine ⟨(am.rangeOrder.order ((ts.filter (fun b => decide (S b ≠ []))).map
      (fun b => (b, S b)))).map (fun e => scopedItem e.1 e.2), ?_, ?_⟩
  · have := (am.rangeOrder.perm ((ts.filter (fun b => decide (S b ≠ []))).map
      (fun b => (b, S b)))).map (fun e => scopedItem e.1 e.2)
    simpa [List.map_map, Function.comp] using this
  · unfold MakeAuthorizedAuditListCondition
    simp only [hparse, if_true, hlist, hloop]
    unfold conditionsOfMap
    simp only [GoMap.get?_append_singleton _ _ _ hfresh, if_pos hlen,
      GoMap.delete_append_singleton _ _ _ hfresh, scopedLoop_eq]
    simp

/-- C2 witness: global grants resolving to A, B and tenant 7 resolving to C give
exactly two predicates, `op_target in [A, B]` and
`op_target in [C] AND bk_biz_id == 7`. -/
theorem C2_global_then_one_predicate_per_tenant_witness :
    ∃ entries : List MapStr,
      entries.Perm [scopedItem 7 ["C"]] ∧
      (MakeAuthorizedAuditListCondition
        (fixtureManager [7] grantsGlobalAnd7 storeABC (RangeOrder.reversed Int (List String)))
        [] 0 []).1 = ⟨globalItem ["A", "B"] :: entries, true, none⟩ :=
  C2_global_then_one_predicate_per_tenant
    (fixtureManager [7] grantsGlobalAnd7 storeABC (RangeOrder.reversed Int (List String)))
    [] [] "admin" [7] idsGlobalAnd7 namesGlobalAnd7 rfl rfl (by decide) (by decide)
    (by
      intro b hb
      have hb1 : b = 0 ∨ b = 7 := by simpa using hb
      rcases hb1 with rfl | rfl
      · exact ⟨fun _ => ⟨_, rfl, rfl⟩, by decide, fun _ _ => ⟨_, rfl, rfl⟩⟩
      · exact ⟨fun _ => ⟨_, rfl, rfl⟩, by decide, fun _ _ => ⟨_, rfl, rfl⟩⟩)
    (by decide)

/-! ## Claims about the tenancy resolvers -/

theorem Label.Int64_of_ok (am : AuthManager) (label : Label)
    (h : label.lookup LabelBusinessID = none ∨
      ∃ value v, label.lookup LabelBusinessID = some value ∧ am.ParseInt value = .ok v) :
    (Label.Int64 am label LabelBusinessID).2 = none ∨
      (Label.Int64 am label LabelBusinessID).2 = some LabelKeyNotExistError := by
  unfold Label.Int64
  rcases h with h | ⟨value, v, h1, h2⟩
  · simp [h]
  · simp [h1, h2]

theorem extractAuditLoop_started : ∀ (categories : List AuditCategorySimplify) (prev : Int),
    extractAuditLoop categories true prev
      = if ∀ c ∈ categories, c.BKAppIDField = prev then .ok prev
        else .error (Err.errorf "get multiple business ID from audit categories") := by
  intro categories
  induction categories with
  | nil => intro prev; simp [extractAuditLoop]
  | cons c rest ih =>
    intro prev
    unfold extractAuditLoop
    by_cases hc : c.BKAppIDField = prev
    · simp only [hc, ne_eq, not_true_eq_false, and_false, if_false]
      rw [ih]
      simp [hc]
    · simp [hc]

theorem extractLabelLoop_started (am : AuthManager) (f1 f2 : String) :
    ∀ (labels : List Label) (prev : Int),
      (∀ l ∈ labels, (Label.Int64 am l LabelBusinessID).2 = none ∨
        (Label.Int64 am l LabelBusinessID).2 = some LabelKeyNotExistError) →
      extractLabelLoop am f1 f2 labels true prev
        = if ∀ l ∈ labels, (Label.Int64 am l LabelBusinessID).1 = prev then .ok prev
          else .error (Err.errorf f2) := by
  intro labels
  induction labels with
  | nil => intro prev _; simp [extractLabelLoop]
  | cons l rest ih =>
    intro prev hok
    have hl := hok l (List.mem_cons_self _ _)
    have hguard : ¬ ((Label.Int64 am l LabelBusinessID).2 ≠ none ∧
        (Label.Int64 am l LabelBusinessID).2 ≠ some LabelKeyNotExistError) := by
      rcases hl with h | h <;> simp [h]
    unfold extractLabelLoop
    simp only [if_neg hguard]
    by_cases hc : (Label.Int64 am l LabelBusinessID).1 = prev
    · simp only [hc, ne_eq, not_true_eq_false, and_false, if_false]
      rw [ih prev (fun l1 h1 => hok l1 (List.mem_cons_of_mem _ h1))]
      simp [hc]
    · simp [hc]

theorem ExtractBusinessIDFromAuditCategories_cons (c : AuditCategorySimplify)
    (rest : List AuditCategorySimplify) :
    ExtractBusinessIDFromAuditCategories (c :: rest)
      = if ∀ c1 ∈ rest, c1.BKAppIDField = c.BKAppIDField then .ok c.BKAppIDField
        else .error (Err.errorf "get multiple business ID from audit categories") := by
  simp only [ExtractBusinessIDFromAuditCategories]
  unfold extractAuditLoop
  simp only [Bool.false_eq_true, false_and, if_false]
  exact extractAuditLoop_started rest _

theorem extractBusinessIDFromClassifications_cons (am : AuthManager)
    (c : Classification) (rest : List Classification)
    (hok : ∀ c1 ∈ c :: rest, c1.labelOk am) :
    extractBusinessIDFromClassifications am (c :: rest)
      = if ∀ c1 ∈ rest, c1.tenant am = c.tenant am then .ok (c.tenant am)
        else .error (Err.errorf "authorization failed, get multiple business ID from objects") := by
  have hc := Label.Int64_of_ok am c.Label (hok c (List.mem_cons_self _ _))
  have hguard : ¬ ((Label.Int64 am c.Label LabelBusinessID).2 ≠ none ∧
      (Label.Int64 am c.Label LabelBusinessID).2 ≠ some LabelKeyNotExistError) := by
    rcases hc with h | h <;> simp [h]
  simp only [extractBusinessIDFromClassifications, List.map_cons]
  unfold extractLabelLoop
  simp only [if_neg hguard, Bool.false_eq_true, false_and, if_false]
  rw [extractLabelLoop_started am _ _ _ _ (fun l hl => by
    obtain ⟨c1, hc1, rfl⟩ := List.mem_map.mp hl
    exact Label.Int64_of_ok am c1.Label (hok c1 (List.mem_cons_of_mem _ hc1)))]
  simp [Classification.tenant]

/-- C6: for a batch of classifications whose tenant labels are absent (value 0) or
well-formed, and for any batch of audit categories, the resolver returns `T`
without error when every entity has tenant value `T` (0 for the empty batch), and
returns the multiple-tenant error when two entities of the batch, at any
positions and also when one value is 0, have different tenant values. -/
theorem C6_tenant_consistency (am : AuthManager) :
    (∀ (cs : List Classification) (T : Int), (∀ c ∈ cs, c.labelOk am) →
      (∀ c ∈ cs, c.tenant am = T) →
      extractBusinessIDFromClassifications am cs = .ok (if cs = [] then 0 else T)) ∧
    (∀ (cs : List Classification) (c1 c2 : Classification), (∀ c ∈ cs, c.labelOk am) →
      c1 ∈ cs → c2 ∈ cs → c1.tenant am ≠ c2.tenant am →
      extractBusinessIDFromClassifications am cs
        = .error (Err.errorf "authorization failed, get multiple business ID from objects")) ∧
    (∀ (cats : List AuditCategorySimplify) (T : Int),
      (∀ c ∈ cats, c.BKAppIDField = T) →
      ExtractBusinessIDFromAuditCategories cats = .ok (if cats = [] then 0 else T)) ∧
    (∀ (cats : List AuditCategorySimplify) (c1 c2 : AuditCategorySimplify),
      c1 ∈ cats → c2 ∈ cats → c1.BKAppIDField ≠ c2.BKAppIDField →
      ExtractBusinessIDFromAuditCategories cats
        = .error (Err.errorf "get multiple business ID from audit categories")) := by
  refine ⟨?_, ?_, ?_, ?_⟩
  · intro cs T hok hall
    cases cs with
    | nil => rfl
    | cons c rest =>
      rw [extractBusinessIDFromClassifications_cons am c rest hok]
      have hc := hall c (List.mem_cons_self _ _)
      have hrest : ∀ c1 ∈ rest, c1.tenant am = c.tenant am := fun c1 h1 => by
        rw [hall c1 (List.mem_cons_of_mem _ h1), hc]
      rw [if_pos hrest]
      simp [hc]
  · intro cs c1 c2 hok h1 h2 hne
    cases cs with
    | nil => simp at h1
    | cons c rest =>
      rw [extractBusinessIDFromClassifications_cons am c rest hok]
      have hnot : ¬ ∀ x ∈ rest, x.tenant am = c.tenant am := by
        intro hall
        have e1 : c1.tenant am = c.tenant am := by
          rcases List.mem_cons.mp h1 with rfl | h
          · rfl
          · exact hall _ h
        have e2 : c2.tenant am = c.tenant am := by
          rcases List.mem_cons.mp h2 with rfl | h
          · rfl
          · exact hall _ h
        exact hne (e1.trans e2.symm)
      simp only [if_neg hnot]
  · intro cats T hall
    cases cats with
    | nil => rfl
    | cons c rest =>
      rw [ExtractBusinessIDFromAuditCategories_cons]
      have hc := hall c (List.mem_cons_self _ _)
      have hrest : ∀ c1 ∈ rest, c1.BKAppIDField = c.BKAppIDField := fun c1 h1 => by
        rw [hall c1 (List.mem_cons_of_mem _ h1), hc]
      rw [if_pos hrest]
      simp [hc]
  · intro cats c1 c2 h1 h2 hne
    cases cats with
    | nil => simp at h1
    | cons c rest =>
      rw [ExtractBusinessIDFromAuditCategories_cons]
      have hnot : ¬ ∀ x ∈ rest, x.BKAppIDField = c.BKAppIDField := by
        intro hall
        have e1 : c1.BKAppIDField = c.BKAppIDField := by
          rcases List.mem_cons.mp h1 with rfl | h
          · rfl
          · exact hall _ h
        have e2 : c2.BKAppIDField = c.BKAppIDField := by
          rcases List.mem_cons.mp h2 with rfl | h
          · rfl
          · exact hall _ h
        exact hne (e1.trans e2.symm)
      simp only [if_neg hnot]

/-- C6 witness: two classifications of tenant 7 resolve to 7; an unlabelled
classification (tenant 0) between two of tenant 7 is rejected; the same for audit
categories, also when the differing entity comes last. -/
theorem C6_tenant_consistency_witness :
    extractBusinessIDFromClassifications
        (fixtureManager [] grantsOnly7 storeABC (RangeOrder.insertion Int (List String)))
        [⟨1, "a", [("bk_biz_id", "7")]⟩, ⟨2, "b", [("bk_biz_id", "7")]⟩]
      = .ok (if ([⟨1, "a", [("bk_biz_id", "7")]⟩, ⟨2, "b", [("bk_biz_id", "7")]⟩] :
          List Classification) = [] then 0 else 7) ∧
    extractBusinessIDFromClassifications
        (fixtureManager [] grantsOnly7 storeABC (RangeOrder.insertion Int (List String)))
        [⟨1, "a", [("bk_biz_id", "7")]⟩, ⟨2, "b", []⟩, ⟨3, "c", [("bk_biz_id", "7")]⟩]
      = .error (Err.errorf "authorization failed, get multiple business ID from objects") ∧
    ExtractBusinessIDFromAuditCategories [⟨7, "host", 5⟩, ⟨7, "switch", 6⟩]
      = .ok (if ([⟨7, "host", 5⟩, ⟨7, "switch", 6⟩] : List AuditCategorySimplify) = []
          then 0 else 7) ∧
    ExtractBusinessIDFromAuditCategories [⟨7, "host", 5⟩, ⟨7, "switch", 6⟩, ⟨0, "router", 8⟩]
      = .error (Err.errorf "get multiple business ID from audit categories") :=
  ⟨(C6_tenant_consistency _).1 _ 7
      (fun c hc => by
        simp only [List.mem_cons, List.mem_singleton, List.not_mem_nil, or_false] at hc
        rcases hc with rfl | rfl <;> exact Or.inr ⟨"7", 7, rfl, rfl⟩)
      (by decide),
   (C6_tenant_consistency _).2.1 _ ⟨2, "b", []⟩ ⟨3, "c", [("bk_biz_id", "7")]⟩
      (fun c hc => by
        simp only [List.mem_cons, List.mem_singleton, List.not_mem_nil, or_false] at hc
        rcases hc with rfl | rfl | rfl
        · exact Or.inr ⟨"7", 7, rfl, rfl⟩
        · exact Or.inl rfl
        · exact Or.inr ⟨"7", 7, rfl, rfl⟩)
      (by simp) (by simp) (by decide),
   (C6_tenant_consistency
      (fixtureManager [] grantsOnly7 storeABC (RangeOrder.insertion Int (List String)))).2.2.1
      _ 7 (by decide),
   (C6_tenant_consistency
      (fixtureManager [] grantsOnly7 storeABC (RangeOrder.insertion Int (List String)))).2.2.2
      _ ⟨7, "host", 5⟩ ⟨0, "router", 8⟩ (by simp) (by simp) (by decide)⟩

/-! ## Claims about the collectors -/

theorem uniqueLoop_spec {α : Type} [DecidableEq α] : ∀ (a ret : List α), ret.Nodup →
    (uniqueLoop a ret).Nodup ∧ ∀ x, x ∈ uniqueLoop a ret ↔ x ∈ a ∨ x ∈ ret := by
  intro a
  induction a with
  | nil => intro ret h; simp [uniqueLoop, h]
  | cons y rest ih =>
    intro ret h
    unfold uniqueLoop
    by_cases hy : y ∈ ret
    · simp only [if_pos hy]
      refine ⟨(ih ret h).1, fun x => ?_⟩
      rw [(ih ret h).2 x]
      constructor
      · rintro (h1 | h1)
        · exact Or.inl (List.mem_cons_of_mem _ h1)
        · exact Or.inr h1
      · rintro (h1 | h1)
        · rcases List.mem_cons.mp h1 with rfl | h2
          · exact Or.inr hy
          · exact Or.inl h2
        · exact Or.inr h1
    · simp only [if_neg hy]
      have hnodup : (ret ++ [y]).Nodup := by
        rw [List.nodup_append]
        refine ⟨h, by simp, ?_⟩
        intro z hz hz1
        simp only [List.mem_singleton] at hz1
        exact hy (hz1 ▸ hz)
      refine ⟨(ih _ hnodup).1, fun x => ?_⟩
      rw [(ih _ hnodup).2 x]
      simp only [List.mem_append, List.mem_singleton, List.mem_cons]
      tauto

theorem uniqueLoop_length {α : Type} [DecidableEq α] (a : List α) :
    (uniqueLoop a []).length = a.dedup.length := by
  have h := uniqueLoop_spec a [] List.nodup_nil
  rw [← List.card_toFinset a, ← List.toFinset_card_of_nodup h.1]
  congr 1
  ext x
  simp [h.2 x]

theorem parseLoop_forall₂ {α : Type} (parse : Record → Except Err α) (format : String) :
    ∀ (info : List Record) (out acc : List α),
      List.Forall₂ (fun r a => parse r = .ok a) info out →
      parseLoop parse format info acc = .ok (acc ++ out) := by
  intro info out acc h
  induction h generalizing acc with
  | nil => simp [parseLoop]
  | cons hhead _ ih =>
    unfold parseLoop
    simp only [hhead]
    rw [ih]
    simp

/-- C7: when the store call succeeds with the records `info`, with N the number of
distinct requested identifiers and M the number of records:
`collectAttributesByAttributeIDs` fails with the not-found error when M = 0, with
the count-mismatch error when M is neither 0 nor N, and otherwise, when the
records decode to `attrs` position by position, returns exactly `attrs`. -/
theorem C7_attribute_collector_counts (am : AuthManager) (header : Header) (ids : List Int)
    (log : List Call) (info : List Record)
    (hstore : am.ReadInstance log header BKTableNameObjAttDes
      [(BKFieldID, CondValue.inInt (IntArrayUnique ids))] = .ok info) :
    (IntArrayUnique ids).length = ids.dedup.length ∧
    (info.length = 0 →
      (collectAttributesByAttributeIDs am header ids log).1
        = .error (Err.errorf "get attribute by id: %+v failed, not found")) ∧
    (info.length ≠ 0 → info.length ≠ ids.dedup.length →
      (collectAttributesByAttributeIDs am header ids log).1
        = .error (Err.errorf "get attribute by id: %+v failed, get %d, expect %d")) ∧
    (info.length ≠ 0 → info.length = ids.dedup.length →
      ∀ attrs : List Attribute,
        List.Forall₂ (fun r a => am.ParseAttribute r = .ok a) info attrs →
        (collectAttributesByAttributeIDs am header ids log).1 = .ok attrs ∧
        attrs.length = info.length) := by
  have hN : (IntArrayUnique ids).length = ids.dedup.length := uniqueLoop_length ids
  refine ⟨hN, ?_, ?_, ?_⟩
  · intro h0
    unfold collectAttributesByAttributeIDs
    simp only [hstore, h0, if_true]
  · intro h0 hne
    unfold collectAttributesByAttributeIDs
    simp only [hstore, if_neg h0, hN, ne_eq, hne, not_false_eq_true, if_true]
  · intro h0 heq attrs hdec
    unfold collectAttributesByAttributeIDs
    have hcount : ¬ info.length ≠ (IntArrayUnique ids).length := by
      rw [hN]
      exact not_not.mpr heq
    simp only [hstore, if_neg h0, if_neg hcount]
    exact ⟨by simpa using parseLoop_forall₂ _ _ _ _ [] hdec, hdec.length_eq.symm⟩

/-- C7 witness: the identifiers 1, 2, 1 have two distinct values and the store holds
two records: both attributes are returned, in store order. -/
theorem C7_attribute_collector_counts_witness :
    (collectAttributesByAttributeIDs
        (fixtureManager [] grantsOnly7 storeTwoAttributes (RangeOrder.insertion Int (List String)))
        [] [1, 2, 1] []).1 = .ok [⟨1, "host", "name"⟩, ⟨2, "host", "ip"⟩] ∧
    ([⟨1, "host", "name"⟩, ⟨2, "host", "ip"⟩] : List Attribute).length
      = (storeTwoAttributes BKTableNameObjAttDes []).length :=
  (C7_attribute_collector_counts
    (fixtureManager [] grantsOnly7 storeTwoAttributes (RangeOrder.insertion Int (List String)))
    [] [1, 2, 1] [] _ rfl).2.2.2 (by decide) (by decide) _
    (List.Forall₂.cons rfl (List.Forall₂.cons rfl List.Forall₂.nil))

/-- C8 (defect of the code): two distinct classification identifiers are requested
and the store returns one record, or none; both collectors return what the store
returned, without the not-found or count-mismatch failure that
`collectAttributesByAttributeIDs` raises on the same answers. -/
theorem C8_classification_collectors_accept_shortfall :
    (collectClassificationsByClassificationIDs
        (fixtureManager [] grantsOnly7 storeOneClassification
          (RangeOrder.insertion Int (List String))) [] ["infra", "network"] []).1
      = .ok [⟨10, "infra", []⟩] ∧
    (collectClassificationsByRawIDs
        (fixtureManager [] grantsOnly7 storeOneClassification
          (RangeOrder.insertion Int (List String))) [] [10, 3] []).1
      = .ok [⟨10, "infra", []⟩] ∧
    (collectClassificationsByClassificationIDs
        (fixtureManager [] grantsOnly7 storeNothing
          (RangeOrder.insertion Int (List String))) [] ["infra", "network"] []).1 = .ok [] ∧
    (collectClassificationsByRawIDs
        (fixtureManager [] grantsOnly7 storeNothing
          (RangeOrder.insertion Int (List String))) [] [10, 3] []).1 = .ok [] ∧
    (collectAttributesByAttributeIDs
        (fixtureManager [] grantsOnly7 storeNothing
          (RangeOrder.insertion Int (List String))) [] [10, 3] []).1
      = .error (Err.errorf "get attribute by id: %+v failed, not found") :=
  ⟨rfl, rfl, rfl, rfl, rfl⟩

/-! ## Claims about the projection to resource descriptors -/

theorem classificationResourcesLoop_eq (am : AuthManager) (header : Header) (action : Action)
    (businessID : Int) : ∀ (cs : List Classification) (resources : List ResourceAttribute),
    classificationResourcesLoop am header action businessID cs resources
      = resources ++ cs.map (fun c =>
          { Basic := { Action := action, Type_ := ResourceType.ModelClassification,
                       Name := c.ClassificationID, InstanceID := c.ID },
            SupplierAccount := am.GetOwnerID header, BusinessID := businessID,
            Layers := [] }) := by
  intro cs
  induction cs with
  | nil => intro resources; simp [classificationResourcesLoop]
  | cons c rest ih => intro resources; simp [classificationResourcesLoop, ih]

theorem auditResourcesLoop_eq (am : AuthManager) (header : Header) (action : Action)
    (businessID : Int) : ∀ (cats : List AuditCategorySimplify)
      (resources : List ResourceAttribute),
    auditResourcesLoop am header action businessID cats resources
      = resources ++ cats.map (fun c =>
          { Basic := { Action := action, Type_ := ResourceType.AuditLog,
                       Name := c.BKOpTargetField, InstanceID := c.ModelID },
            SupplierAccount := am.GetOwnerID header, BusinessID := businessID,
            Layers := [] }) := by
  intro cats
  induction cats with
  | nil => intro resources; simp [auditResourcesLoop]
  | cons c rest ih => intro resources; simp [auditResourcesLoop, ih]

theorem attributeResourcesLoop_eq (am : AuthManager) (header : Header) (action : Action)
    (businessID : Int) (objectMap : GoMap String Object)
    (classificationMap : GoMap String Classification) :
    ∀ (attrs : List Attribute) (resources out : List ResourceAttribute),
      attributeResourcesLoop am header action businessID objectMap classificationMap attrs
        resources = .ok out →
      out = resources ++ attrs.map
        (attributeResource am header action businessID objectMap classificationMap) := by
  intro attrs
  induction attrs with
  | nil =>
    intro resources out h
    simp only [attributeResourcesLoop, Except.ok.injEq] at h
    simp [h]
  | cons a rest ih =>
    intro resources out h
    unfold attributeResourcesLoop at h
    simp only at h
    split at h
    · exact absurd h (by simp)
    · rename_i classification hget
      rw [ih _ _ h]
      simp [attributeResource, hget]

theorem makeResourceByAttributes_eq (am : AuthManager) (header : Header) (action : Action)
    (attrs : List Attribute) (log : List Call) (rs : List ResourceAttribute)
    (h : (makeResourceByAttributes am header action attrs log).1 = .ok rs) :
    ∃ (businessID : Int) (objectMap : GoMap String Object)
      (classificationMap : GoMap String Classification),
      rs = attrs.map
        (attributeResource am header action businessID objectMap classificationMap) := by
  unfold makeResourceByAttributes at h
  simp only at h
  split at h
  · simp at h
  · split at h
    · simp at h
    · split at h
      · simp at h
      · simp only at h
        exact ⟨_, _, _, by simpa using attributeResourcesLoop_eq _ _ _ _ _ _ _ _ _ h⟩

theorem attributeResourcesLoop_ok (am : AuthManager) (header : Header) (action : Action)
    (businessID : Int) (objectMap : GoMap String Object)
    (classificationMap : GoMap String Classification) :
    ∀ (attrs : List Attribute) (resources : List ResourceAttribute),
      (∀ a ∈ attrs, GoMap.get? classificationMap
        ((GoMap.get? objectMap a.ObjectID).getD Object.zero).ObjCls ≠ none) →
      attributeResourcesLoop am header action businessID objectMap classificationMap attrs
        resources
        = .ok (resources ++ attrs.map
            (attributeResource am header action businessID objectMap classificationMap)) := by
  intro attrs
  induction attrs with
  | nil => intro resources _; simp [attributeResourcesLoop]
  | cons a rest ih =>
    intro resources h
    have ha := h a (List.mem_cons_self _ _)
    unfold attributeResourcesLoop
    simp only
    cases hget : GoMap.get? classificationMap
        ((GoMap.get? objectMap a.ObjectID).getD Object.zero).ObjCls with
    | none => exact absurd hget ha
    | some classification =>
      simp only
      rw [ih _ (fun a1 h1 => h a1 (List.mem_cons_of_mem _ h1))]
      simp [attributeResource, hget]

/-- C9: the projection of attributes returns, whenever the models and the
classifications are fetched, the tenant resolves and the classification of the
model of every attribute is among the fetched ones, the input list mapped entity by
entity and in input order to descriptors, each carrying the requested action, the
identifier of its attribute as InstanceID and its name; every successful
projection of attributes is such a map (so there is one descriptor per entity,
equal entities give equal descriptors and nothing is de-duplicated); the
projections of classifications and of audit categories always return the mapped
input list, with the identifier and the name of each entity. -/
theorem C9_one_descriptor_per_entity_in_order (am : AuthManager) (header : Header)
    (action : Action) :
    (∀ (attrs : List Attribute) (log log1 log2 : List Call) (objects : List Object)
        (businessID : Int) (classifications : List Classification),
      collectObjectsByObjectIDs am header (attrs.map (fun attr => attr.ObjectID)) log
        = (.ok objects, log1) →
      ExtractBusinessIDFromObjects am objects = .ok businessID →
      collectClassificationsByClassificationIDs am header
        (objects.map (fun object => object.ObjCls)) log1 = (.ok classifications, log2) →
      (∀ a ∈ attrs, GoMap.get? (classificationMapOf classifications [])
        ((GoMap.get? (objectMapOf objects []) a.ObjectID).getD Object.zero).ObjCls ≠ none) →
      makeResourceByAttributes am header action attrs log
        = (.ok (attrs.map (attributeResource am header action businessID
              (objectMapOf objects []) (classificationMapOf classifications []))), log2)) ∧
    (∀ (businessID : Int) (objectMap : GoMap String Object)
        (classificationMap : GoMap String Classification) (a : Attribute),
      (attributeResource am header action businessID objectMap classificationMap a).Basic
        = ⟨action, ResourceType.ModelAttribute, a.PropertyName, a.ID⟩) ∧
    (∀ (attrs : List Attribute) (log : List Call) (rs : List ResourceAttribute),
      (makeResourceByAttributes am header action attrs log).1 = .ok rs →
      ∃ f : Attribute → ResourceAttribute, rs = attrs.map f ∧
        ∀ a, (f a).Basic = ⟨action, ResourceType.ModelAttribute, a.PropertyName, a.ID⟩) ∧
    (∀ (businessID : Int) (cs : List Classification),
      makeResourcesByClassifications am header action businessID cs
        = cs.map (fun c =>
            { Basic := ⟨action, ResourceType.ModelClassification, c.ClassificationID, c.ID⟩,
              SupplierAccount := am.GetOwnerID header, BusinessID := businessID,
              Layers := [] })) ∧
    (∀ (businessID : Int) (cats : List AuditCategorySimplify),
      MakeResourcesByAuditCategories am header action businessID cats
        = .ok (cats.map (fun c =>
            { Basic := ⟨action, ResourceType.AuditLog, c.BKOpTargetField, c.ModelID⟩,
              SupplierAccount := am.GetOwnerID header, BusinessID := businessID,
              Layers := [] }))) := by
  refine ⟨?_, ?_, ?_, ?_, ?_⟩
  · intro attrs log log1 log2 objects businessID classifications hobj hbiz hcls hpresent
    unfold makeResourceByAttributes
    simp only [hobj, hbiz, hcls]
    rw [attributeResourcesLoop_ok am header action businessID _ _ attrs [] hpresent]
    simp
  · intro businessID objectMap classificationMap a
    rfl
  · intro attrs log rs h
    obtain ⟨businessID, objectMap, classificationMap, hrs⟩ :=
      makeResourceByAttributes_eq am header action attrs log rs h
    exact ⟨_, hrs, fun a => rfl⟩
  · intro businessID cs
    unfold makeResourcesByClassifications
    rw [classificationResourcesLoop_eq]
    simp
  · intro businessID cats
    unfold MakeResourcesByAuditCategories
    rw [auditResourcesLoop_eq]
    simp

/-- C9 witness: for the model host of `storeHostInfra`, `makeResourceByAttributes`
given the same attribute twice and then another one returns three descriptors in
that order, the first two equal, after the two store lookups. -/
theorem C9_one_descriptor_per_entity_in_order_witness :
    makeResourceByAttributes
        (fixtureManager [] grantsOnly7 storeHostInfra (RangeOrder.insertion Int (List String)))
        [] Action.Update [⟨1, "host", "name"⟩, ⟨1, "host", "name"⟩, ⟨2, "host", "ip"⟩] []
      = (.ok [hostAttributeResource Action.Update 1 "name",
              hostAttributeResource Action.Update 1 "name",
              hostAttributeResource Action.Update 2 "ip"], hostInfraLookups) :=
  (C9_one_descriptor_per_entity_in_order
    (fixtureManager [] grantsOnly7 storeHostInfra (RangeOrder.insertion Int (List String)))
    [] Action.Update).1 [⟨1, "host", "name"⟩, ⟨1, "host", "name"⟩, ⟨2, "host", "ip"⟩] []
    [Call.ReadInstance BKTableNameObjDes [(BKObjIDField, CondValue.inStr ["host"])]]
    hostInfraLookups [⟨5, "host", "infra", []⟩] 0 [⟨10, "infra", []⟩] rfl rfl rfl (by decide)

/-- C10 (defect of the code): for the attributes 1 and 2 of the model host (id 5,
classification infra with id 10) both descriptors carry the layers
[{Model, "infra", 10}, {Model, "host", 5}]: two layers, in root-to-leaf order,
with the names and ids of the classification and of the model, but the resource
kind of the classification layer is Model and not ModelClassification. -/
theorem C10_classification_layer_has_kind_model :
    (makeResourceByAttributes
        (fixtureManager [] grantsOnly7 storeHostInfra (RangeOrder.insertion Int (List String)))
        [] Action.Update [⟨1, "host", "name"⟩, ⟨2, "host", "ip"⟩] []).1
      = .ok [{ Basic := ⟨Action.Update, ResourceType.ModelAttribute, "name", 1⟩,
               SupplierAccount := "0", BusinessID := 0,
               Layers := [⟨ResourceType.Model, "infra", 10⟩, ⟨ResourceType.Model, "host", 5⟩] },
             { Basic := ⟨Action.Update, ResourceType.ModelAttribute, "ip", 2⟩,
               SupplierAccount := "0", BusinessID := 0,
               Layers := [⟨ResourceType.Model, "infra", 10⟩, ⟨ResourceType.Model, "host", 5⟩] }] ∧
    (⟨ResourceType.Model, "infra", 10⟩ : Item) ≠ ⟨ResourceType.ModelClassification, "infra", 10⟩ :=
  ⟨rfl, by decide⟩

/-! ## Where the unchecked read of `objectMap` is harmless -/

theorem objectMapOf_mem : ∀ (objects : List Object) (m : GoMap String Object)
    (e : String × Object), e ∈ objectMapOf objects m →
    e ∈ m ∨ (e.2 ∈ objects ∧ e.2.ObjectID = e.1) := by
  intro objects
  induction objects with
  | nil => intro m e h; exact Or.inl h
  | cons o rest ih =>
    intro m e h
    rcases ih _ e h with h1 | ⟨h1, h2⟩
    · rcases (GoMap.mem_set _ _ _ _).mp h1 with h3 | h3
      · exact Or.inl h3.1
      · subst h3
        exact Or.inr ⟨List.mem_cons_self _ _, rfl⟩
    · exact Or.inr ⟨List.mem_cons_of_mem _ h1, h2⟩

theorem classificationMapOf_mem : ∀ (classifications : List Classification)
    (m : GoMap String Classification) (e : String × Classification),
    e ∈ classificationMapOf classifications m →
    e ∈ m ∨ (e.2 ∈ classifications ∧ e.2.ClassificationID = e.1) := by
  intro classifications
  induction classifications with
  | nil => intro m e h; exact Or.inl h
  | cons c rest ih =>
    intro m e h
    rcases ih _ e h with h1 | ⟨h1, h2⟩
    · rcases (GoMap.mem_set _ _ _ _).mp h1 with h3 | h3
      · exact Or.inl h3.1
      · subst h3
        exact Or.inr ⟨List.mem_cons_self _ _, rfl⟩
    · exact Or.inr ⟨List.mem_cons_of_mem _ h1, h2⟩

theorem attributeResourcesLoop_present (am : AuthManager) (header : Header) (action : Action)
    (businessID : Int) (objectMap : GoMap String Object)
    (classificationMap : GoMap String Classification) :
    ∀ (attrs : List Attribute) (resources out : List ResourceAttribute),
      attributeResourcesLoop am header action businessID objectMap classificationMap attrs
        resources = .ok out →
      ∀ a ∈ attrs, ∃ c, GoMap.get? classificationMap
        ((GoMap.get? objectMap a.ObjectID).getD Object.zero).ObjCls = some c := by
  intro attrs
  induction attrs with
  | nil => intro resources out _ a ha; simp at ha
  | cons a0 rest ih =>
    intro resources out h a ha
    unfold attributeResourcesLoop at h
    simp only at h
    split at h
    · exact absurd h (by simp)
    · rename_i classification hget
      rcases List.mem_cons.mp ha with rfl | h1
      · exact ⟨classification, hget⟩
      · exact ih _ _ h a h1

theorem makeResourceByAttributes_fetched (am : AuthManager) (header : Header)
    (action : Action) (attrs : List Attribute) (log : List Call)
    (rs : List ResourceAttribute)
    (h : (makeResourceByAttributes am header action attrs log).1 = .ok rs) :
    ∃ (objects : List Object) (classifications : List Classification),
      (collectObjectsByObjectIDs am header (attrs.map (fun attr => attr.ObjectID)) log).1
        = .ok objects ∧
      ((∀ c ∈ classifications, c.ClassificationID ≠ "") →
        ∀ a ∈ attrs, ∃ o ∈ objects, o.ObjectID = a.ObjectID ∧
          ∃ c ∈ classifications, c.ClassificationID = o.ObjCls) := by
  unfold makeResourceByAttributes at h
  simp only at h
  split at h
  · simp at h
  · rename_i objects log1 hobj
    split at h
    · simp at h
    · split at h
      · simp at h
      · rename_i businessID _ classifications log2 hcls
        simp only at h
        refine ⟨objects, classifications, by rw [hobj], ?_⟩
        intro hnonempty a ha
        obtain ⟨c, hc⟩ := attributeResourcesLoop_present _ _ _ _ _ _ _ _ _ h a ha
        have hcmem := GoMap.get?_some _ _ _ hc
        rcases classificationMapOf_mem _ _ _ hcmem with h1 | ⟨h1, h2⟩
        · simp at h1
        · simp only at h1 h2
          cases hget : GoMap.get? (objectMapOf objects []) a.ObjectID with
          | none =>
            rw [hget] at h2
            exact absurd h2 (hnonempty c h1)
          | some o =>
            rw [hget] at h2
            have homem := GoMap.get?_some _ _ _ hget
            rcases objectMapOf_mem _ _ _ homem with h3 | ⟨h3, h4⟩
            · simp at h3
            · exact ⟨o, h3, h4, c, h1, h2⟩

/-! ## What the read path and the enabled write path do, for every input -/

theorem AuthorizeByAttributeID_disabled (am : AuthManager) (header : Header)
    (action : Action) (attributeIDs : List Int) (log : List Call)
    (hoff : am.RegisterModelAttributeEnabled = false) :
    AuthorizeByAttributeID am header action attributeIDs log = (none, log) := by
  unfold AuthorizeByAttributeID
  rw [hoff]
  split <;> rfl

theorem AuthorizeModelAttribute_disabled (am : AuthManager) (header : Header)
    (action : Action) (attributes : List Attribute) (log : List Call)
    (hne : attributes ≠ []) (hoff : am.RegisterModelAttributeEnabled = false) :
    AuthorizeModelAttribute am header action attributes log
      = (am.AuthorizeByObjectID log header Action.Update
            (attributes.map (fun attr => attr.ObjectID)),
         log ++ [Call.AuthorizeByObjectID Action.Update
            (attributes.map (fun attr => attr.ObjectID))]) := by
  have hlen : ¬ attributes.length = 0 := fun h => hne (List.length_eq_zero.mp h)
  unfold AuthorizeModelAttribute
  rw [hoff]
  simp only [if_neg hlen, if_true]

theorem enabled_gateway_forwarding (am : AuthManager) (header : Header) (action : Action)
    (attributes : List Attribute) (log log1 : List Call) (empty : List ResourceAttribute)
    (resources : List ResourceAttribute)
    (hne : attributes ≠ []) (hon : am.RegisterModelAttributeEnabled = true)
    (hempty : makeResourceByAttributes am header Action.EmptyAction attributes log
      = (.ok empty, log1))
    (hproj : makeResourceByAttributes am header action attributes log = (.ok resources, log1)) :
    RegisterModelAttribute am header attributes log
      = (am.RegisterResource log1 empty, log1 ++ [Call.RegisterResource empty]) ∧
    DeregisterModelAttribute am header attributes log
      = (am.DeregisterResource log1 empty, log1 ++ [Call.DeregisterResource empty]) ∧
    UpdateRegisteredModelAttribute am header attributes log
      = (am.RegisterResource log1 empty, log1 ++ [Call.RegisterResource empty]) ∧
    AuthorizeModelAttribute am header action attributes log
      = (am.RegisterResource log1 resources, log1 ++ [Call.RegisterResource resources]) := by
  have hlen : ¬ attributes.length = 0 := fun h => hne (List.length_eq_zero.mp h)
  refine ⟨?_, ?_, ?_, ?_⟩
  · unfold RegisterModelAttribute
    simp [hlen, hon, hempty]
  · unfold DeregisterModelAttribute
    simp [hlen, hon, hempty]
  · unfold UpdateRegisteredModelAttribute
    simp [hlen, hon, hempty]
  · unfold AuthorizeModelAttribute
    simp [hlen, hon, hproj]

/-! ## Claims about the gateway operations -/

/-- C11 (defect of the code): the attributes 1 and 2 belong to the models host and
switch; the store, which honours every filter, holds two records named host and
none named switch, so the lookup of the two identifiers returns two records and
passes the count check.  The owning model of attribute 2 is not among the fetched
models, yet `makeResourceByAttributes` does not fail: the unchecked read of
`objectMap` yields the zero model, whose empty classification reference is found
in `classificationMap`, and the descriptor of attribute 2 carries the layers
[{Model, "", 10}, {Model, "", 0}], the second of which is no fetched model. -/
theorem C11_unresolved_model_is_not_detected :
    (collectObjectsByObjectIDs
        (fixtureManager [] grantsOnly7 (filteringStore dataDuplicateHost)
          (RangeOrder.insertion Int (List String))) [] ["host", "switch"] []).1
      = .ok [⟨5, "host", "", []⟩, ⟨7, "host", "", []⟩] ∧
    (makeResourceByAttributes
        (fixtureManager [] grantsOnly7 (filteringStore dataDuplicateHost)
          (RangeOrder.insertion Int (List String)))
        [] Action.Update [⟨1, "host", "name"⟩, ⟨2, "switch", "ip"⟩] []).1
      = .ok [{ Basic := ⟨Action.Update, ResourceType.ModelAttribute, "name", 1⟩,
               SupplierAccount := "0", BusinessID := 0,
               Layers := [⟨ResourceType.Model, "", 10⟩, ⟨ResourceType.Model, "host", 7⟩] },
             { Basic := ⟨Action.Update, ResourceType.ModelAttribute, "ip", 2⟩,
               SupplierAccount := "0", BusinessID := 0,
               Layers := [⟨ResourceType.Model, "", 10⟩, ⟨ResourceType.Model, "", 0⟩] }] :=
  ⟨rfl, rfl⟩

/-- C12: with `RegisterModelAttributeEnabled = false` the five write-path
operations return the nil error and leave the call list unchanged (no call to the
store or to the policy engine), for every batch of attributes or identifiers. -/
theorem C12_disabled_write_path_makes_no_call (am : AuthManager) (header : Header)
    (attributes : List Attribute) (attributeIDs : List Int) (log : List Call)
    (hoff : am.RegisterModelAttributeEnabled = false) :
    RegisterModelAttribute am header attributes log = (none, log) ∧
    DeregisterModelAttribute am header attributes log = (none, log) ∧
    DeregisterModelAttributeByID am header attributeIDs log = (none, log) ∧
    UpdateRegisteredModelAttribute am header attributes log = (none, log) ∧
    UpdateRegisteredModelAttributeByID am header attributeIDs log = (none, log) := by
  refine ⟨?_, ?_, ?_, ?_, ?_⟩
  · unfold RegisterModelAttribute
    rw [hoff]
    split <;> rfl
  · unfold DeregisterModelAttribute
    rw [hoff]
    split <;> rfl
  · unfold DeregisterModelAttributeByID
    rw [hoff]
    split <;> rfl
  · unfold UpdateRegisteredModelAttribute
    rw [hoff]
    split <;> rfl
  · unfold UpdateRegisteredModelAttributeByID
    rw [hoff]
    split <;> rfl

/-- C12 witness: a disabled manager, two attributes, two identifiers. -/
theorem C12_disabled_write_path_makes_no_call_witness :
    RegisterModelAttribute disabledManager [] [⟨1, "host", "name"⟩, ⟨2, "host", "ip"⟩] []
      = (none, []) ∧
    DeregisterModelAttribute disabledManager [] [⟨1, "host", "name"⟩, ⟨2, "host", "ip"⟩] []
      = (none, []) ∧
    DeregisterModelAttributeByID disabledManager [] [1, 2] [] = (none, []) ∧
    UpdateRegisteredModelAttribute disabledManager [] [⟨1, "host", "name"⟩, ⟨2, "host", "ip"⟩] []
      = (none, []) ∧
    UpdateRegisteredModelAttributeByID disabledManager [] [1, 2] [] = (none, []) :=
  C12_disabled_write_path_makes_no_call disabledManager []
    [⟨1, "host", "name"⟩, ⟨2, "host", "ip"⟩] [1, 2] [] rfl

/-- C13 (defect of the code): with the toggle disabled and a model-level check that
denies, `AuthorizeByAttributeID` for the attributes 1 and 2 returns the nil error
without any call, while `AuthorizeModelAttribute` for the same two attributes
calls `AuthorizeByObjectID` with the action update on their owning models and
returns its denial. -/
theorem C13_authorize_by_id_skips_the_model_check :
    AuthorizeByAttributeID disabledDenyingManager [] Action.Update [1, 2] [] = (none, []) ∧
    AuthorizeModelAttribute disabledDenyingManager [] Action.Update
        [⟨1, "host", "name"⟩, ⟨2, "host", "ip"⟩] []
      = (some (Err.external "no permission"),
         [Call.AuthorizeByObjectID Action.Update ["host", "host"]]) := by
  decide

/-- C14 (defect of the code): with the toggle enabled and a successful projection,
`UpdateRegisteredModelAttribute` and `AuthorizeModelAttribute` both submit the
descriptors to the engine operation `RegisterResource`: the update of attribute
2 succeeds although the engine rejects every update of that resource, and the
access check for the action find registers the descriptor and performs no check. -/
theorem C14_update_and_authorize_call_register :
    UpdateRegisteredModelAttribute secondUpdateFailsManager [] [⟨2, "host", "ip"⟩] []
      = (none, hostInfraLookups ++
          [Call.RegisterResource [hostAttributeResource Action.EmptyAction 2 "ip"]]) ∧
    AuthorizeModelAttribute secondUpdateFailsManager [] Action.Find [⟨2, "host", "ip"⟩] []
      = (none, hostInfraLookups ++
          [Call.RegisterResource [hostAttributeResource Action.Find 2 "ip"]]) ∧
    RegisterModelAttribute secondUpdateFailsManager [] [⟨2, "host", "ip"⟩] []
      = (none, hostInfraLookups ++
          [Call.RegisterResource [hostAttributeResource Action.EmptyAction 2 "ip"]]) ∧
    DeregisterModelAttribute secondUpdateFailsManager [] [⟨2, "host", "ip"⟩] []
      = (none, hostInfraLookups ++
          [Call.DeregisterResource [hostAttributeResource Action.EmptyAction 2 "ip"]]) := by
  decide

theorem updateResourcesLoop_all_accepted (am : AuthManager) :
    ∀ (rs : List ResourceAttribute) (log : List Call),
      (∀ (i : Nat) (r : ResourceAttribute), rs[i]? = some r →
        am.UpdateResource (log ++ (rs.take i).map Call.UpdateResource) r = none) →
      updateResourcesLoop am rs log = (none, log ++ rs.map Call.UpdateResource) := by
  intro rs
  induction rs with
  | nil => intro log _; simp [updateResourcesLoop]
  | cons r rest ih =>
    intro log h
    have h0 : am.UpdateResource log r = none := by
      have := h 0 r (by simp)
      simpa using this
    unfold updateResourcesLoop
    simp only [h0]
    rw [ih (log ++ [Call.UpdateResource r]) (fun i r1 hi => by
      have := h (i + 1) r1 (by simpa using hi)
      simpa using this)]
    simp

theorem updateResourcesLoop_first_rejected (am : AuthManager) :
    ∀ (rs : List ResourceAttribute) (log : List Call) (k : Nat) (r : ResourceAttribute)
      (e : Err),
      rs[k]? = some r →
      (∀ (i : Nat) (r1 : ResourceAttribute), i < k → rs[i]? = some r1 →
        am.UpdateResource (log ++ (rs.take i).map Call.UpdateResource) r1 = none) →
      am.UpdateResource (log ++ (rs.take k).map Call.UpdateResource) r = some e →
      updateResourcesLoop am rs log
        = (some e, log ++ (rs.take (k + 1)).map Call.UpdateResource) := by
  intro rs
  induction rs with
  | nil => intro log k r e hk; simp at hk
  | cons r0 rest ih =>
    intro log k r e hk hbefore hfail
    cases k with
    | zero =>
      have hr : r0 = r := by simpa using hk
      subst hr
      have hfail1 : am.UpdateResource log r0 = some e := by simpa using hfail
      unfold updateResourcesLoop
      simp [hfail1]
    | succ k =>
      have h0 : am.UpdateResource log r0 = none := by
        have := hbefore 0 r0 (Nat.succ_pos k) (by simp)
        simpa using this
      unfold updateResourcesLoop
      simp only [h0]
      rw [ih (log ++ [Call.UpdateResource r0]) k r e (by simpa using hk)
        (fun i r1 hi hget => by
          have := hbefore (i + 1) r1 (Nat.succ_lt_succ hi) (by simpa using hget)
          simpa using this)
        (by simpa using hfail)]
      simp

/-- C15: for a non-empty batch whose tenant resolves to `T`, with `rs` the
descriptors of the batch in input order, `UpdateRegisteredClassification` calls
the engine's update once per descriptor, in order: if every update is accepted
the result is nil and the calls made are the updates of all of `rs`; if the
update of `rs[k]` is the first one rejected, with error `e`, the result is
exactly `e` and the calls made are the updates of `rs[0..k]` and nothing else. -/
theorem C15_updates_in_order_first_failure_aborts (am : AuthManager) (header : Header)
    (cs : List Classification) (log : List Call) (T : Int) (rs : List ResourceAttribute)
    (hne : cs ≠ [])
    (htenant : extractBusinessIDFromClassifications am cs = .ok T)
    (hrs : rs = makeResourcesByClassifications am header Action.EmptyAction T cs) :
    ((∀ (i : Nat) (r : ResourceAttribute), rs[i]? = some r →
        am.UpdateResource (log ++ (rs.take i).map Call.UpdateResource) r = none) →
      UpdateRegisteredClassification am header cs log
        = (none, log ++ rs.map Call.UpdateResource)) ∧
    (∀ (k : Nat) (r : ResourceAttribute) (e : Err), rs[k]? = some r →
      (∀ (i : Nat) (r1 : ResourceAttribute), i < k → rs[i]? = some r1 →
        am.UpdateResource (log ++ (rs.take i).map Call.UpdateResource) r1 = none) →
      am.UpdateResource (log ++ (rs.take k).map Call.UpdateResource) r = some e →
      UpdateRegisteredClassification am header cs log
        = (some e, log ++ (rs.take (k + 1)).map Call.UpdateResource)) := by
  have hlen : ¬ cs.length = 0 := fun h => hne (List.length_eq_zero.mp h)
  have hunfold : UpdateRegisteredClassification am header cs log
      = updateResourcesLoop am rs log := by
    unfold UpdateRegisteredClassification
    simp only [if_neg hlen, htenant, hrs]
  rw [hunfold]
  exact ⟨updateResourcesLoop_all_accepted am rs log,
    updateResourcesLoop_first_rejected am rs log⟩

/-- C15 witness: three classifications of tenant 0, the engine rejects the update
of the second: the updates of the first and of the second are submitted, in that
order, the third is never submitted, and the rejection is returned. -/
theorem C15_updates_in_order_first_failure_aborts_witness :
    UpdateRegisteredClassification secondUpdateFailsManager []
        [⟨1, "a", []⟩, ⟨2, "b", []⟩, ⟨3, "c", []⟩] []
      = (some (Err.external "update failed"),
         [] ++ ([classificationResource 1 "a", classificationResource 2 "b",
            classificationResource 3 "c"].take (1 + 1)).map Call.UpdateResource) :=
  (C15_updates_in_order_first_failure_aborts secondUpdateFailsManager []
    [⟨1, "a", []⟩, ⟨2, "b", []⟩, ⟨3, "c", []⟩] [] 0
    [classificationResource 1 "a", classificationResource 2 "b", classificationResource 3 "c"]
    (by simp) rfl rfl).2 1 (classificationResource 2 "b") (Err.external "update failed") rfl
    (fun i r1 hi hget => by
      have hi0 : i = 0 := by omega
      subst hi0
      have hr : classificationResource 1 "a" = r1 := by simpa using hget
      subst hr
      rfl)
    rfl

end Extensions
